import Mathlib

/-!
Shallow embedding of the finance-analysis-app portfolio backend and the
frontend valuation utilities.

Conventions used throughout:
* JavaScript numbers are modelled by `ℚ`.  A JavaScript arithmetic result
  that may be non-finite (`NaN` or `±∞`, which in this codebase can only
  arise from dividing by zero) is modelled by `Option ℚ`, with `none`
  standing for the non-finite outcomes.
* JavaScript's `a / b` on finite operands is `jdiv a b`: it is `none`
  exactly when `b = 0` (in IEEE arithmetic `0/0 = NaN` and `x/0 = ±∞`).
* `undefined`/missing values are modelled with `Option`.
* Truthiness of a string is "non-empty"; truthiness of a number is
  "non-zero", matching the way the source uses `||` and `if (x)`.
* Network calls (Yahoo Finance search and quote) and DynamoDB reads are
  modelled as explicit oracle parameters; DynamoDB tables are association
  lists threaded through the functions as explicit state.
-/

/-- JavaScript division on finite rationals: `none` models the non-finite
results (`0/0 = NaN`, `x/0 = ±∞`) produced when the denominator is zero. -/
def jdiv (a b : ℚ) : Option ℚ :=
  if b = 0 then none else some (a / b)

/-- Value of a list of decimal digit characters read left to right. -/
def digitsVal (cs : List Char) : ℕ :=
  cs.foldl (fun a c => a * 10 + (c.toNat - 48)) 0

/-- JavaScript whitespace test for the characters appearing in this
codebase's inputs. -/
def jsIsSpace (c : Char) : Bool :=
  c = ' ' ∨ c = '\t' ∨ c = '\n' ∨ c = '\r'

/-- JavaScript `String.prototype.trim`: strip whitespace from both ends. -/
def jsTrim (s : String) : String :=
  ⟨((s.data.dropWhile jsIsSpace).reverse.dropWhile jsIsSpace).reverse⟩

/-- JavaScript `parseFloat` restricted to the shapes appearing in this
codebase: optional leading spaces, optional sign, integer digits, optional
fractional digits; trailing characters are ignored (prefix parse).
`none` models `NaN` (no digits could be consumed). -/
def parseFloatQ (s : String) : Option ℚ :=
  let cs := s.data.dropWhile (· = ' ')
  let sign : ℚ := if cs.head? = some '-' then -1 else 1
  let cs := if cs.head? = some '-' ∨ cs.head? = some '+' then cs.tail else cs
  let intPart := cs.takeWhile Char.isDigit
  let rest := cs.dropWhile Char.isDigit
  let fracPart := if rest.head? = some '.' then rest.tail.takeWhile Char.isDigit else []
  if intPart = [] ∧ fracPart = [] then none
  else some (sign * ((digitsVal intPart : ℚ) + (digitsVal fracPart : ℚ) / (10 ^ fracPart.length)))

/-! ## Frontend valuation utilities (`src/frontend/src/utils/positionUtils.ts`) -/

/-- Model of `PositionData` from `frontend/src/types`: the database shape of a
position as consumed by `transformPositionData` (`currentPrice` optional). -/
structure PositionData where
  ticker : String
  shares : ℚ
  purchasePrice : ℚ
  purchaseDate : String
  currentPrice : Option ℚ
  notes : Option String
  deriving Repr, DecidableEq

/-- Model of `Position`, the UI shape with derived valuation fields.  `gainLossPct`
is `Option ℚ` because the source can produce `NaN` there. -/
structure Position where
  ticker : String
  shares : ℚ
  purchasePrice : ℚ
  purchaseDate : String
  currentPrice : ℚ
  currentValue : ℚ
  gainLoss : ℚ
  gainLossPct : Option ℚ
  notes : Option String
  deriving Repr, DecidableEq

/-- Model of `transformPositionData` (positionUtils.ts lines 6-26): derives
`currentValue`, `gainLoss`, `gainLossPct` from a stored position.  The
source guards the division only with `purchasePrice > 0`. -/
def transformPositionData (pd : PositionData) : Position :=
  let currentPrice := pd.currentPrice.getD 0
  let currentValue := pd.shares * currentPrice
  let gainLoss := currentValue - pd.shares * pd.purchasePrice
  let gainLossPct :=
    if 0 < pd.purchasePrice then
      (jdiv gainLoss (pd.shares * pd.purchasePrice)).map (· * 100)
    else some 0
  { ticker := pd.ticker
    shares := pd.shares
    purchasePrice := pd.purchasePrice
    purchaseDate := pd.purchaseDate
    currentPrice := currentPrice
    currentValue := currentValue
    gainLoss := gainLoss
    gainLossPct := gainLossPct
    notes := pd.notes }

/-- Model of `transformPositionsData` (positionUtils.ts lines 31-34). -/
def transformPositionsData (pds : List PositionData) : List Position :=
  pds.map transformPositionData

/-- Body of the `positions.map` callback in `updateCurrentPrices`
(positionUtils.ts lines 42-58); `jitter` stands for the draw
`Math.random() * 0.04 - 0.02` made for this position.  The recomputed
`gainLossPct` divides by `shares * purchasePrice` with no guard. -/
def updateCurrentPriceStep (jitter : ℚ) (p : Position) : Position :=
  let priceChange := p.currentPrice * jitter
  let newPrice := p.currentPrice + priceChange
  let currentValue := newPrice * p.shares
  let gainLoss := currentValue - p.shares * p.purchasePrice
  let gainLossPct := (jdiv gainLoss (p.shares * p.purchasePrice)).map (· * 100)
  { p with
    currentPrice := newPrice
    currentValue := currentValue
    gainLoss := gainLoss
    gainLossPct := gainLossPct }

/-- Helper for `updateCurrentPrices`: maps the callback over the list,
feeding each position the random draw of its index. -/
def updateCurrentPricesFrom (jitters : ℕ → ℚ) (i : ℕ) : List Position → List Position
  | [] => []
  | p :: rest => updateCurrentPriceStep (jitters i) p :: updateCurrentPricesFrom jitters (i + 1) rest

/-- Model of `updateCurrentPrices` (positionUtils.ts lines 41-60), with the
sequence of `Math.random()` draws supplied as the oracle `jitters`. -/
def updateCurrentPrices (jitters : ℕ → ℚ) (positions : List Position) : List Position :=
  updateCurrentPricesFrom jitters 0 positions

/-! ## Import pipeline data types (`cdk-infra/lambda/portfolio/index.ts`) -/

/-- Model of `ImportPosition`: a candidate lot produced by the parsers and consumed
by enrichment and the writer.  Optional fields model `?:` fields. -/
structure ImportPosition where
  ticker : String
  companyName : Option String
  shares : ℚ
  purchasePrice : ℚ
  purchaseDate : String
  currentPrice : Option ℚ
  notes : Option String
  deriving Repr, DecidableEq

/-- Model of `ImportResults`: the per-batch outcome tally. -/
structure ImportResults where
  totalPositions : ℕ
  validPositions : ℕ
  addedPositions : ℕ
  errors : ℕ
  warnings : List String
  deriving Repr, DecidableEq

/-- Model of `EnrichmentResult`: enriched lots plus the tally. -/
structure EnrichmentResult where
  enrichedPositions : List ImportPosition
  importResults : ImportResults
  deriving Repr, DecidableEq

/-- An Excel row as produced by `XLSX.utils.sheet_to_json`: a JavaScript
object, i.e. a finite map from column-header names to cell contents,
modelled as an association list with distinct keys; cell contents are
modelled as the strings the source casts them to. -/
abbrev ExcelRow := List (String × String)

/-- JavaScript property access `row[key]` followed by the `|| ""` chains of
the source: a missing property (`undefined`) and an empty string are both
falsy, so both are modelled as `""`. -/
def getCell (row : ExcelRow) (key : String) : String :=
  match row.find? (fun c => c.1 = key) with
  | some c => c.2
  | none => ""

/-- The `a || b || ... || dflt` chain over cell lookups: first cell whose
string is truthy (non-empty), else the default. -/
def firstCell (row : ExcelRow) : List String → String → String
  | [], dflt => dflt
  | k :: ks, dflt =>
    if getCell row k ≠ "" then getCell row k else firstCell row ks dflt

/-- The per-row body of `processExcelData` (index.ts lines 729-780).
`todayISO` models `new Date().toISOString().split("T")[0]` and
`todayLocale` models `new Date().toLocaleDateString()`.  A row is kept
only if `(ticker || companyName) && !isNaN(shares) && shares > 0`. -/
def excelRowToCandidate (todayISO todayLocale : String) (row : ExcelRow) : Option ImportPosition :=
  let ticker := firstCell row ["Symbol", "Ticker", "Stock Symbol", "Security", "Security Name"] ""
  let companyName := firstCell row ["Company", "Name", "Company Name", "Description"] ""
  let shares := parseFloatQ (firstCell row ["Shares", "Quantity", "Holdings Quantity", "Amount", "Units"] "0")
  let purchasePrice := parseFloatQ (firstCell row ["Purchase Price", "Avg Buy Rate", "Price", "Cost", "Cost/Share"] "0")
  let purchaseDateStr := firstCell row ["Purchase Date", "Date"] todayISO
  match shares with
  | some sh =>
    if (ticker ≠ "" ∨ companyName ≠ "") ∧ 0 < sh then
      some { ticker := jsTrim ticker
             companyName := if companyName ≠ "" then some (jsTrim companyName) else none
             shares := sh
             purchasePrice := (purchasePrice.getD 0)
             purchaseDate := purchaseDateStr
             currentPrice := none
             notes := some ("Imported from Excel on " ++ todayLocale) }
    else none
  | none => none

/-- Model of `processExcelData` (index.ts lines 725-783). -/
def processExcelData (todayISO todayLocale : String) (data : List ExcelRow) : List ImportPosition :=
  data.filterMap (excelRowToCandidate todayISO todayLocale)

/-! ## Yahoo Finance lookups (`index.ts` lines 939-1064) -/

/-- One entry of the `quotes` array in a Yahoo Finance search response. -/
structure YahooQuote where
  symbol : String
  shortname : Option String
  longname : Option String
  exchange : Option String
  quoteType : String
  score : Option ℚ
  deriving Repr, DecidableEq

/-- Model of `TickerInfo`, the result shape of `lookupTickerByCompanyName`. -/
structure TickerInfo where
  symbol : String
  name : Option String
  exchange : Option String
  score : Option ℚ
  deriving Repr, DecidableEq

/-- Model of `StockData`, the result shape of `getYahooFinanceStockData`; only the
fields the import pipeline reads are carried. -/
structure StockData where
  symbol : String
  price : ℚ
  name : Option String
  deriving Repr, DecidableEq

/-- JavaScript `a || b` for optional strings (`shortname || longname`). -/
def strOr (a b : Option String) : Option String :=
  match a with
  | some s => if s ≠ "" then some s else b
  | none => b

/-- Model of `lookupTickerByCompanyName` (index.ts lines 948-1006).  The network
interaction is an oracle: `none` models a failed fetch, a non-OK status or
a response without a `quotes` array (all of which make the source return
`null`); `some quotes` models a well-formed response.  The source takes
the first result with `quoteType === "EQUITY"`, then the first with
`quoteType === "ETF"`, else `null`. -/
def lookupTickerByCompanyName (response : Option (List YahooQuote)) : Option TickerInfo :=
  match response with
  | none => none
  | some quotes =>
    match quotes.find? (fun q => q.quoteType = "EQUITY") with
    | some equity =>
      some { symbol := equity.symbol
             name := strOr equity.shortname equity.longname
             exchange := equity.exchange
             score := equity.score }
    | none =>
      match quotes.find? (fun q => q.quoteType = "ETF") with
      | some etf =>
        some { symbol := etf.symbol
               name := strOr etf.shortname etf.longname
               exchange := etf.exchange
               score := etf.score }
      | none => none

/-! ## Enrichment (`enrichPositionsWithYahooFinance`, index.ts 848-937) -/

/-- JavaScript string concatenation `position.notes + suffix` where
`notes` may be `undefined` (which JS renders as the string "undefined"). -/
def jsNotesAppend (notes : Option String) (suffix : String) : String :=
  (match notes with | some s => s | none => "undefined") ++ suffix

/-- The single `enrichedPositions.push({...})` of the source (index.ts
915-926): `currentPrice: currentPrice || position.purchasePrice` with
`purchasePrice` the (possibly backfilled) purchase price and
`currentPrice` the local variable (0 when no usable quote was obtained);
`suffix` is the company-lookup provenance annotation appended to `notes`. -/
def enrichedLot (ticker : String) (position : ImportPosition)
    (purchasePrice currentPrice : ℚ) (suffix : String) : ImportPosition :=
  { ticker := ticker
    companyName := none
    shares := position.shares
    purchasePrice := purchasePrice
    purchaseDate := position.purchaseDate
    currentPrice := some (if currentPrice ≠ 0 then currentPrice else purchasePrice)
    notes := some (jsNotesAppend position.notes suffix) }

/-- The `if (ticker) { ... }` quote section of the enrichment loop
(index.ts 887-926), entered once a non-empty ticker is known: look up a
quote, backfill a zero/missing purchase price from it, count the row as
valid on a usable quote, warn but keep the row otherwise.  Returns the
pushed lot and the updated tally. -/
def enrichWithTicker (quoteData : String → Option StockData)
    (ticker suffix : String) (position : ImportPosition)
    (results : ImportResults) : ImportPosition × ImportResults :=
  match quoteData ticker with
  | some stockData =>
    if stockData.price ≠ 0 then
      let currentPrice := stockData.price
      let backfill := position.purchasePrice = 0
      let purchasePrice := if backfill then currentPrice else position.purchasePrice
      let results := if backfill then
          { results with warnings := results.warnings ++
            ["Used current price for " ++ ticker ++ " as purchase price was missing"] }
        else results
      let results := { results with validPositions := results.validPositions + 1 }
      (enrichedLot ticker position purchasePrice currentPrice suffix, results)
    else
      let results := { results with warnings := results.warnings ++
        ["Could not validate ticker " ++ ticker] }
      (enrichedLot ticker position position.purchasePrice 0 suffix, results)
  | none =>
    let results := { results with warnings := results.warnings ++
      ["Could not validate ticker " ++ ticker] }
    (enrichedLot ticker position position.purchasePrice 0 suffix, results)

/-- One iteration of the `for (const position of positions)` loop in
`enrichPositionsWithYahooFinance` (index.ts 860-934), acting on the
accumulator `(enriched-so-far, tally)`.  `search` is the Yahoo name-search
oracle (keyed by company name) and `quoteData` the Yahoo quote oracle
(keyed by ticker). -/
def enrichStep (search : String → Option (List YahooQuote))
    (quoteData : String → Option StockData)
    (acc : List ImportPosition × ImportResults)
    (position : ImportPosition) : List ImportPosition × ImportResults :=
  let enriched := acc.1
  let results := acc.2
  if position.ticker = "" ∧ (position.companyName.getD "") ≠ "" then
    let cname := position.companyName.getD ""
    match lookupTickerByCompanyName (search cname) with
    | some tickerInfo =>
      if tickerInfo.symbol ≠ "" then
        let results := { results with warnings := results.warnings ++
          ["Looked up ticker " ++ tickerInfo.symbol ++ " for company \x22" ++ cname ++ "\x22"] }
        let out := enrichWithTicker quoteData tickerInfo.symbol
          (" (Ticker looked up from \x22" ++ cname ++ "\x22)") position results
        (enriched ++ [out.1], out.2)
      else
        (enriched, { results with
          warnings := results.warnings ++
            ["Could not find ticker for company \x22" ++ cname ++ "\x22"]
          errors := results.errors + 1 })
    | none =>
      (enriched, { results with
        warnings := results.warnings ++
          ["Could not find ticker for company \x22" ++ cname ++ "\x22"]
        errors := results.errors + 1 })
  else if position.ticker ≠ "" then
    let out := enrichWithTicker quoteData position.ticker "" position results
    (enriched ++ [out.1], out.2)
  else
    (enriched, { results with
      warnings := results.warnings ++ ["Position missing both ticker and company name"]
      errors := results.errors + 1 })

/-- Model of `enrichPositionsWithYahooFinance` (index.ts lines 848-937): fold the
loop body over the batch, starting from the tally initialised with
`totalPositions = positions.length` and everything else zero/empty. -/
def enrichPositionsWithYahooFinance (search : String → Option (List YahooQuote))
    (quoteData : String → Option StockData)
    (positions : List ImportPosition) : EnrichmentResult :=
  let init : ImportResults :=
    { totalPositions := positions.length, validPositions := 0,
      addedPositions := 0, errors := 0, warnings := [] }
  let out := positions.foldl (enrichStep search quoteData) ([], init)
  { enrichedPositions := out.1, importResults := out.2 }

/-! ## DynamoDB modelling -/

/-- A DynamoDB attribute value as used by this codebase: strings and
numbers. -/
inductive AttrVal where
  | str (s : String)
  | num (q : ℚ)
  deriving Repr, DecidableEq

/-- JavaScript truthiness of an attribute value. -/
def AttrVal.truthy : AttrVal → Bool
  | .str s => s ≠ ""
  | .num q => q ≠ 0

/-- A DynamoDB item (or a parsed JSON request body): a finite map from
attribute names to values, modelled as an association list with distinct
keys (JavaScript objects cannot repeat keys). -/
abbrev Item := List (String × AttrVal)

/-- Property read `item[key]`: `none` models `undefined`. -/
def getAttr (item : Item) (key : String) : Option AttrVal :=
  match item.find? (fun c => c.1 = key) with
  | some c => some c.2
  | none => none

/-- Property write `item[key] = v`: replace the binding if present,
append it otherwise. -/
def setAttr (item : Item) (key : String) (v : AttrVal) : Item :=
  match item with
  | [] => [(key, v)]
  | c :: rest => if c.1 = key then (key, v) :: rest else c :: setAttr rest key v

/-- Apply a list of attribute writes in order (the semantics of a
DynamoDB `SET` update expression on an existing item). -/
def applyAttrs (item : Item) (attrs : List (String × AttrVal)) : Item :=
  attrs.foldl (fun it kv => setAttr it kv.1 kv.2) item

/-- JavaScript `x || ""`-style truthiness of an optional attribute. -/
def truthyOpt : Option AttrVal → Bool
  | some v => v.truthy
  | none => false

/-- JavaScript `Number(string)`: empty/whitespace-only strings give 0,
otherwise the whole (trimmed) string must be a decimal number; `none`
models `NaN`. -/
def jsNumberOfString (s : String) : Option ℚ :=
  let t := (jsTrim s).data
  if t = [] then some 0
  else
    let sign : ℚ := if t.head? = some '-' then -1 else 1
    let t := if t.head? = some '-' ∨ t.head? = some '+' then t.tail else t
    let intPart := t.takeWhile Char.isDigit
    let rest := t.dropWhile Char.isDigit
    let fracPart := if rest.head? = some '.' then rest.tail.takeWhile Char.isDigit else []
    let rest2 := if rest.head? = some '.' then rest.tail.dropWhile Char.isDigit else rest
    if (intPart = [] ∧ fracPart = []) ∨ rest2 ≠ [] then none
    else some (sign * ((digitsVal intPart : ℚ) + (digitsVal fracPart : ℚ) / (10 ^ fracPart.length)))

/-- JavaScript `Number(x)` on a possibly-missing attribute value:
`Number(undefined)` is `NaN` (`none`). -/
def toNumber : Option AttrVal → Option ℚ
  | none => none
  | some (.num q) => some q
  | some (.str s) => jsNumberOfString s

/-- The position table: a list of items; the writers maintain uniqueness
of the key `(portfolioId, ticker)`. -/
abbrev PositionStore := List Item

/-- Whether an item sits at key `(portfolioId, ticker)`. -/
def itemHasKey (item : Item) (portfolioId ticker : String) : Bool :=
  getAttr item "portfolioId" = some (.str portfolioId) ∧
  getAttr item "ticker" = some (.str ticker)

/-- DynamoDB `get` on the position table by primary key. -/
def findPositionItem (store : PositionStore) (portfolioId ticker : String) : Option Item :=
  List.find? (fun it => itemHasKey it portfolioId ticker) store

/-- Whether a row already exists for `(portfolioId, ticker)`; an existing
item always carries both key attributes, so the conditional put's
`attribute_not_exists(portfolioId) OR attribute_not_exists(ticker)`
fails exactly when this is true. -/
def keyExists (store : PositionStore) (portfolioId ticker : String) : Bool :=
  (findPositionItem store portfolioId ticker).isSome

/-! ## Responses -/

/-- The JSON response bodies produced by the portfolio lambda, one
constructor per `JSON.stringify` shape used by the source. -/
inductive RespBody where
  | errMsg (error : String)
  | errMsgDetails (error details : String)
  | errMsgHint (error message : String)
  | importReport (message : String) (results : ImportResults)
  | itemBody (item : Item)
  | itemsBody (items : List Item)
  | msgBody (message : String)
  deriving Repr, DecidableEq

/-- An API Gateway proxy result (headers are constant and omitted). -/
structure ApiResponse where
  statusCode : ℕ
  body : RespBody
  deriving Repr, DecidableEq

/-! ## `checkPortfolioExists` (index.ts lines 70-89) -/

/-- Outcome of the DynamoDB `get` on the portfolio table: `ok found`
models a successful read (`found` is `!!result.Item`), `err` models the
storage call throwing. -/
inductive DbGetResult where
  | ok (itemFound : Bool)
  | err
  deriving Repr, DecidableEq

/-- Model of `checkPortfolioExists`: `!!result.Item` on success; the `catch`
returns `false` (assume the portfolio doesn't exist on error). -/
def checkPortfolioExists : DbGetResult → Bool
  | .ok found => found
  | .err => false

/-! ## The idempotent writer (`saveImportedPositions`, index.ts 1067-1127) -/

/-- The item put for one imported position (index.ts 1079-1090); `now`
models `new Date().toISOString()`.  Attributes whose source value is
`undefined` are omitted from the item. -/
def importedItem (userId portfolioId now : String) (p : ImportPosition) : Item :=
  [("userId", AttrVal.str userId),
   ("portfolioId", AttrVal.str portfolioId),
   ("ticker", AttrVal.str p.ticker),
   ("shares", AttrVal.num p.shares),
   ("purchasePrice", AttrVal.num p.purchasePrice),
   ("purchaseDate", AttrVal.str p.purchaseDate)] ++
  (match p.currentPrice with | some q => [("currentPrice", AttrVal.num q)] | none => []) ++
  [("createdAt", AttrVal.str now), ("updatedAt", AttrVal.str now)] ++
  (match p.notes with | some s => [("notes", AttrVal.str s)] | none => [])

/-- The duplicate warning the writer appends for one skipped row
("Position for X already exists in portfolio"). -/
def dupWarning (p : ImportPosition) : String :=
  "Position for " ++ p.ticker ++ " already exists in portfolio"

/-- The duplicate warnings a fully-skipped batch appends, in row order. -/
def dupWarnings (ps : List ImportPosition) : List String :=
  ps.map dupWarning

/-- The `for (const position of enrichedPositions)` loop of
`saveImportedPositions`: a conditional put per lot.  When the key exists
the put raises `ConditionalCheckFailedException`, which the source turns
into a duplicate warning; otherwise the row is inserted and the
`addedPositions` counter incremented. -/
def savePositionsLoop (userId portfolioId now : String) :
    List ImportPosition → PositionStore → ImportResults → PositionStore × ImportResults
  | [], store, results => (store, results)
  | p :: rest, store, results =>
    if keyExists store portfolioId p.ticker then
      savePositionsLoop userId portfolioId now rest store
        { results with warnings := results.warnings ++ [dupWarning p] }
    else
      savePositionsLoop userId portfolioId now rest
        (store ++ [importedItem userId portfolioId now p])
        { results with addedPositions := results.addedPositions + 1 }

/-- Model of `saveImportedPositions` (index.ts 1067-1127): run the loop and return
the 200 report; the state of the position table is returned alongside. -/
def saveImportedPositions (userId portfolioId now : String)
    (enrichment : EnrichmentResult) (store : PositionStore) :
    ApiResponse × PositionStore :=
  let out := savePositionsLoop userId portfolioId now
    enrichment.enrichedPositions store enrichment.importResults
  (⟨200, .importReport "Portfolio data imported successfully" out.2⟩, out.1)

/-! ## Position CRUD handlers (index.ts 1129-1445) -/

/-- Model of `getPositions` (index.ts 1129-1162): 404 when the guarded portfolio
check fails, otherwise the query keyed on `portfolioId` and filtered on
`userId`. -/
def getPositions (portfolioGet : DbGetResult) (store : PositionStore)
    (userId portfolioId : String) : ApiResponse :=
  if ¬ checkPortfolioExists portfolioGet then ⟨404, .errMsg "Portfolio not found"⟩
  else
    ⟨200, .itemsBody (store.filter (fun it =>
      getAttr it "portfolioId" = some (.str portfolioId) ∧
      getAttr it "userId" = some (.str userId)))⟩

/-- The mutation block of `addPosition` (index.ts 1224-1239): stamp
ownership and timestamps onto the payload, mock a current price when none
was given (`purchasePrice * (1 + (Math.random() * 0.2 - 0.1))`), then
coerce the numeric fields with `Number(...)`. -/
def addPositionItem (payload : Item) (userId portfolioId now : String) (rand : ℚ) : Item :=
  let p := setAttr payload "userId" (.str userId)
  let p := setAttr p "portfolioId" (.str portfolioId)
  let p := setAttr p "createdAt" (.str now)
  let p := setAttr p "updatedAt" (.str now)
  let p :=
    if ¬ truthyOpt (getAttr p "currentPrice") then
      setAttr p "currentPrice"
        (.num (((toNumber (getAttr p "purchasePrice")).getD 0) *
          (1 + (rand * (1/5) - 1/10))))
    else p
  let p := setAttr p "shares" (.num ((toNumber (getAttr p "shares")).getD 0))
  let p := setAttr p "purchasePrice" (.num ((toNumber (getAttr p "purchasePrice")).getD 0))
  setAttr p "currentPrice" (.num ((toNumber (getAttr p "currentPrice")).getD 0))

/-- Model of `addPosition` (index.ts 1164-1257).  `now` models the ISO timestamp,
`rand` the `Math.random()` draw for the mocked current price. -/
def addPosition (portfolioGet : DbGetResult) (store : PositionStore)
    (userId portfolioId : String) (position : Item) (now : String) (rand : ℚ) :
    ApiResponse × PositionStore :=
  if ¬ checkPortfolioExists portfolioGet then
    (⟨404, .errMsg "Portfolio not found"⟩, store)
  else if ¬ truthyOpt (getAttr position "ticker") ∨ ¬ truthyOpt (getAttr position "shares") then
    (⟨400, .errMsg "Ticker and shares are required"⟩, store)
  else if (toNumber (getAttr position "shares")).isNone ∨
          (toNumber (getAttr position "purchasePrice")).isNone then
    (⟨400, .errMsg "Shares and purchase price must be valid numbers"⟩, store)
  else
    let tickerVal := (getAttr position "ticker").getD (.str "")
    match List.find? (fun it =>
        getAttr it "portfolioId" = some (.str portfolioId) ∧
        getAttr it "ticker" = some tickerVal) store with
    | some _ =>
      (⟨409, .errMsgHint "Position already exists with this ticker in this portfolio"
          "Use PUT to update an existing position"⟩, store)
    | none =>
      let position := addPositionItem position userId portfolioId now rand
      (⟨201, .itemBody position⟩, store ++ [position])

/-- The numeric-field validation of `updatePosition`:
`updates.key && isNaN(Number(updates.key))`. -/
def numericUpdateBad (updates : Item) (key : String) : Bool :=
  truthyOpt (getAttr updates key) ∧ (toNumber (getAttr updates key)).isNone

/-- The keys `updatePosition` refuses to touch (index.ts 1326-1332). -/
def updateFrameKeys : List String := ["portfolioId", "ticker", "userId", "createdAt"]

/-- The mocked current price of `updatePosition` (index.ts 1345-1351):
`(updates.purchasePrice || existingItem.Item.purchasePrice) *
(1 + (Math.random() * 0.2 - 0.1))`.  Stored rows always carry a numeric
`purchasePrice`, which the `getD 0` fallback never reaches. -/
def mockCurrentPrice (updates existingItem : Item) (rand : ℚ) : ℚ :=
  let cpp :=
    if truthyOpt (getAttr updates "purchasePrice") then
      (toNumber (getAttr updates "purchasePrice")).getD 0
    else (toNumber (getAttr existingItem "purchasePrice")).getD 0
  cpp * (1 + (rand * (1/5) - 1/10))

/-- The `SET` attribute list `updatePosition` builds (index.ts
1316-1355): `updatedAt` first, then every payload field outside the frame
keys (`shares`/`purchasePrice` coerced to numbers), then the mocked
`currentPrice` when the payload's `shares` or `purchasePrice` is truthy. -/
def payloadUpdateAttrs (updates : Item) : List (String × AttrVal) :=
  (updates.filter (fun kv => ¬ kv.1 ∈ updateFrameKeys)).map (fun kv =>
    if kv.1 = "shares" ∨ kv.1 = "purchasePrice" then
      (kv.1, AttrVal.num ((toNumber (some kv.2)).getD 0))
    else kv)

/-- The conditional mock-`currentPrice` write (index.ts 1346-1355). -/
def currentPriceAttr (updates : Item) (existingItem : Item) (rand : ℚ) :
    List (String × AttrVal) :=
  if truthyOpt (getAttr updates "shares") ∨ truthyOpt (getAttr updates "purchasePrice") then
    [("currentPrice", AttrVal.num (mockCurrentPrice updates existingItem rand))]
  else []

def buildUpdateAttrs (updates : Item) (now : String) (existingItem : Item) (rand : ℚ) :
    List (String × AttrVal) :=
  [("updatedAt", AttrVal.str now)] ++ payloadUpdateAttrs updates ++
    currentPriceAttr updates existingItem rand

/-- Write back the updated item at its key. -/
def replacePositionItem (store : PositionStore) (portfolioId ticker : String)
    (newItem : Item) : PositionStore :=
  store.map (fun it => if itemHasKey it portfolioId ticker then newItem else it)

/-- Model of `updatePosition` (index.ts 1259-1388).  The
`updateExpressions.length === 0` check of the source is dead code
(`updatedAt` is always pushed) and is not modelled. -/
def updatePosition (portfolioGet : DbGetResult) (store : PositionStore)
    (userId portfolioId ticker : String) (updates : Item) (now : String) (rand : ℚ) :
    ApiResponse × PositionStore :=
  if ¬ checkPortfolioExists portfolioGet then
    (⟨404, .errMsg "Portfolio not found"⟩, store)
  else
    match findPositionItem store portfolioId ticker with
    | none => (⟨404, .errMsg "Position not found or not authorized"⟩, store)
    | some existingItem =>
      if getAttr existingItem "userId" ≠ some (.str userId) then
        (⟨404, .errMsg "Position not found or not authorized"⟩, store)
      else if numericUpdateBad updates "shares" then
        (⟨400, .errMsg "Shares must be a valid number"⟩, store)
      else if numericUpdateBad updates "purchasePrice" then
        (⟨400, .errMsg "Purchase price must be a valid number"⟩, store)
      else
        let newItem := applyAttrs existingItem (buildUpdateAttrs updates now existingItem rand)
        (⟨200, .itemBody newItem⟩, replacePositionItem store portfolioId ticker newItem)

/-- Model of `deletePosition` (index.ts 1390-1445). -/
def deletePosition (portfolioGet : DbGetResult) (store : PositionStore)
    (userId portfolioId ticker : String) : ApiResponse × PositionStore :=
  if ¬ checkPortfolioExists portfolioGet then
    (⟨404, .errMsg "Portfolio not found"⟩, store)
  else
    match findPositionItem store portfolioId ticker with
    | none => (⟨404, .errMsg "Position not found or not authorized"⟩, store)
    | some existingItem =>
      if getAttr existingItem "userId" ≠ some (.str userId) then
        (⟨404, .errMsg "Position not found or not authorized"⟩, store)
      else
        (⟨200, .msgBody "Position deleted successfully"⟩,
          store.filter (fun it => ¬ itemHasKey it portfolioId ticker))

/-! ## CSV parsing (`handleCsvImport`, index.ts 786-845) -/

/-- JavaScript `s.includes(sub)`. -/
def jsIncludes (s sub : String) : Bool :=
  decide (sub.data <:+: s.data)

/-- Lower-case a string (ASCII, as in this codebase's headers). -/
def lowerStr (s : String) : String :=
  ⟨s.data.map Char.toLower⟩

/-- A case-insensitive regex alternation test such as
`/shares|quantity|amount|units/i.test(col)`: some alternative occurs in
the column name, ignoring case. -/
def regexTestCI (pats : List String) (col : String) : Bool :=
  pats.any (fun p => jsIncludes (lowerStr col) p)

/-- Drop a trailing carriage return, as the `/\r?\n/` split does. -/
def stripCR (l : String) : String :=
  if l.data.getLast? = some '\r' then ⟨l.data.dropLast⟩ else l

/-- The pure parsing part of `handleCsvImport` (index.ts 791-838):
header-index resolution by case-insensitive regexes, then per-row field
extraction with the same retention test as the Excel path. -/
def csvParsePositions (todayISO todayLocale : String) (body : String) : List ImportPosition :=
  let lines := (body.splitOn "\n").map stripCR
  let header := (lines.headD "").splitOn ","
  let tickerIndex := header.findIdx? (regexTestCI ["symbol", "ticker", "security", "stock"])
  let companyIndex := header.findIdx? (regexTestCI ["company", "name", "description"])
  let sharesIndex := header.findIdx? (regexTestCI ["shares", "quantity", "amount", "units"])
  let priceIndex := header.findIdx? (regexTestCI ["price", "cost", "rate"])
  let dateIndex := header.findIdx? (regexTestCI ["date", "purchased"])
  lines.tail.filterMap fun line =>
    if jsTrim line = "" then none
    else
      let values := line.splitOn ","
      let ticker := match tickerIndex with | some i => jsTrim (values.getD i "") | none => ""
      let companyName := match companyIndex with | some i => jsTrim (values.getD i "") | none => ""
      let shares := match sharesIndex with | some i => parseFloatQ (values.getD i "") | none => some 0
      let purchasePrice := match priceIndex with | some i => parseFloatQ (values.getD i "") | none => some 0
      let purchaseDate := match dateIndex with | some i => jsTrim (values.getD i "") | none => todayISO
      match shares with
      | some sh =>
        if (ticker ≠ "" ∨ companyName ≠ "") ∧ 0 < sh then
          some { ticker := ticker
                 companyName := some companyName
                 shares := sh
                 purchasePrice := purchasePrice.getD 0
                 purchaseDate := purchaseDate
                 currentPrice := none
                 notes := some ("Imported from CSV on " ++ todayLocale) }
        else none
      | none => none

/-- Model of `handleCsvImport` (index.ts 786-845): parse, enrich, save. -/
def handleCsvImport (search : String → Option (List YahooQuote))
    (quoteData : String → Option StockData)
    (userId portfolioId todayISO todayLocale now : String)
    (body : String) (store : PositionStore) : ApiResponse × PositionStore :=
  saveImportedPositions userId portfolioId now
    (enrichPositionsWithYahooFinance search quoteData (csvParsePositions todayISO todayLocale body))
    store

/-- The guard and content-kind dispatch of `importPortfolioData`
(index.ts 485-540).  The three branch handlers run only after the guard
passes; they are injected as parameters (the HTML and binary-Excel
parsers depend on regex/XLSX machinery outside this embedding). -/
def importPortfolioData (portfolioGet : DbGetResult) (body contentType : String)
    (htmlBranch excelBranch csvBranch : ApiResponse) : ApiResponse :=
  if ¬ checkPortfolioExists portfolioGet then ⟨404, .errMsg "Portfolio not found"⟩
  else if jsIncludes body "<table>" ∨ jsIncludes body "<html" then htmlBranch
  else if jsIncludes contentType "application/vnd.openxmlformats" ∨
          jsIncludes contentType "application/vnd.ms-excel" ∨
          jsIncludes contentType "multipart/form-data" then excelBranch
  else if jsIncludes contentType "text/csv" ∨ jsIncludes body "," then csvBranch
  else ⟨400, .errMsgDetails "Unsupported file format"
    "Please upload an Excel file (.xlsx, .xls), CSV, or an HTML table."⟩

/-! ## Helper lemmas -/

theorem jdiv_eq_none_iff (a b : ℚ) : jdiv a b = none ↔ b = 0 := by
  unfold jdiv
  by_cases h : b = 0 <;> simp [h]

theorem jdiv_map_eq_none_iff (a b : ℚ) (f : ℚ → ℚ) :
    (jdiv a b).map f = none ↔ b = 0 := by
  rw [Option.map_eq_none']
  exact jdiv_eq_none_iff a b

theorem mem_updateCurrentPricesFrom {jitters : ℕ → ℚ} {i : ℕ}
    {ps : List Position} {q : Position} (hq : q ∈ updateCurrentPricesFrom jitters i ps) :
    ∃ d p, p ∈ ps ∧ q = updateCurrentPriceStep d p := by
  induction ps generalizing i with
  | nil => simp [updateCurrentPricesFrom] at hq
  | cons p rest ih =>
    simp only [updateCurrentPricesFrom, List.mem_cons] at hq
    rcases hq with h | h
    · exact ⟨jitters i, p, List.mem_cons_self p rest, h⟩
    · obtain ⟨d, p', hp', hq'⟩ := ih h
      exact ⟨d, p', List.mem_cons_of_mem p hp', hq'⟩

theorem updateCurrentPriceStep_shares (d : ℚ) (p : Position) :
    (updateCurrentPriceStep d p).shares = p.shares := rfl

theorem updateCurrentPriceStep_purchasePrice (d : ℚ) (p : Position) :
    (updateCurrentPriceStep d p).purchasePrice = p.purchasePrice := rfl

/-! ## Claim C1 -/

/-- C1 counterexample: at `shares = 0`, `purchasePrice = 1` (both
non-negative, product zero) `transformPositionData` computes
`gainLossPct = (0 / (0 * 1)) * 100`, i.e. `NaN` (`none`), not 0: the
guard `purchasePrice > 0` does not cover `shares = 0`. -/
theorem C1_zero_shares_gainLossPct_NaN :
    (0:ℚ) ≤ 0 ∧ (0:ℚ) ≤ 1 ∧ (0:ℚ) * 1 = 0 ∧
    (transformPositionData
      { ticker := "AAPL", shares := 0, purchasePrice := 1, purchaseDate := "2024-01-02",
        currentPrice := some 2, notes := none }).gainLossPct = none := by
  refine ⟨le_refl 0, by norm_num, by norm_num, ?_⟩
  simp +decide [transformPositionData, jdiv]

/-- C1 amended: in `transformPositionData`, `gainLossPct` is 0 whenever
`purchasePrice = 0`, is the finite percentage whenever
`purchasePrice > 0` and `shares ≠ 0`, but is `NaN` when
`purchasePrice > 0` and `shares = 0`; and in `updateCurrentPrices` the
divide is never guarded: a produced position's `gainLossPct` is
non-finite exactly when its `shares * purchasePrice = 0`. -/
theorem C1_gainLossPct_guard (pd : PositionData) (jitters : ℕ → ℚ)
    (ps : List Position) (q : Position) :
    (pd.purchasePrice = 0 → (transformPositionData pd).gainLossPct = some 0) ∧
    (0 < pd.purchasePrice → pd.shares ≠ 0 → (transformPositionData pd).gainLossPct =
      some ((pd.shares * pd.currentPrice.getD 0 - pd.shares * pd.purchasePrice) /
        (pd.shares * pd.purchasePrice) * 100)) ∧
    (0 < pd.purchasePrice → pd.shares = 0 →
      (transformPositionData pd).gainLossPct = none) ∧
    (q ∈ updateCurrentPrices jitters ps →
      (q.gainLossPct = none ↔ q.shares * q.purchasePrice = 0)) := by
  refine ⟨?_, ?_, ?_, ?_⟩
  · intro h
    simp [transformPositionData, h]
  · intro hpp hsh
    have hne : pd.shares * pd.purchasePrice ≠ 0 :=
      mul_ne_zero hsh (ne_of_gt hpp)
    simp [transformPositionData, jdiv, hpp, hne]
  · intro hpp hsh
    have hz : pd.shares * pd.purchasePrice = 0 := by rw [hsh]; ring
    simp [transformPositionData, jdiv, hpp, hz]
  · intro hq
    obtain ⟨d, p, _, hq'⟩ := mem_updateCurrentPricesFrom hq
    subst hq'
    rw [updateCurrentPriceStep_shares, updateCurrentPriceStep_purchasePrice]
    show (Option.map _ (jdiv _ (p.shares * p.purchasePrice)) = none) ↔ _
    exact jdiv_map_eq_none_iff _ _ _

/-- C1 witness: each branch of `C1_gainLossPct_guard` at a concrete
input. -/
theorem C1_gainLossPct_guard_witness :
    (transformPositionData
      { ticker := "A", shares := 2, purchasePrice := 0, purchaseDate := "d",
        currentPrice := some 3, notes := none }).gainLossPct = some 0 ∧
    (transformPositionData
      { ticker := "A", shares := 2, purchasePrice := 5, purchaseDate := "d",
        currentPrice := some 3, notes := none }).gainLossPct = some (-40) ∧
    (transformPositionData
      { ticker := "A", shares := 0, purchasePrice := 5, purchaseDate := "d",
        currentPrice := some 3, notes := none }).gainLossPct = none ∧
    ((updateCurrentPriceStep 0
      { ticker := "A", shares := 0, purchasePrice := 5, purchaseDate := "d",
        currentPrice := 3, currentValue := 0, gainLoss := 0, gainLossPct := some 0,
        notes := none }).gainLossPct = none ↔
     (updateCurrentPriceStep 0
      { ticker := "A", shares := 0, purchasePrice := 5, purchaseDate := "d",
        currentPrice := 3, currentValue := 0, gainLoss := 0, gainLossPct := some 0,
        notes := none }).shares *
     (updateCurrentPriceStep 0
      { ticker := "A", shares := 0, purchasePrice := 5, purchaseDate := "d",
        currentPrice := 3, currentValue := 0, gainLoss := 0, gainLossPct := some 0,
        notes := none }).purchasePrice = 0) := by
  refine ⟨?_, ?_, ?_, ?_⟩
  · exact (C1_gainLossPct_guard
      { ticker := "A", shares := 2, purchasePrice := 0, purchaseDate := "d",
        currentPrice := some 3, notes := none } (fun _ => 0) [] ⟨"Z", 1, 1, "d", 1, 1, 0, some 0, none⟩).1 rfl
  · have h := (C1_gainLossPct_guard
      { ticker := "A", shares := 2, purchasePrice := 5, purchaseDate := "d",
        currentPrice := some 3, notes := none } (fun _ => 0) [] ⟨"Z", 1, 1, "d", 1, 1, 0, some 0, none⟩).2.1
      (by norm_num) (by norm_num)
    rw [h]
    norm_num
  · exact (C1_gainLossPct_guard
      { ticker := "A", shares := 0, purchasePrice := 5, purchaseDate := "d",
        currentPrice := some 3, notes := none } (fun _ => 0) [] ⟨"Z", 1, 1, "d", 1, 1, 0, some 0, none⟩).2.2.1
      (by norm_num) rfl
  · exact (C1_gainLossPct_guard ⟨"Z", 1, 1, "d", none, none⟩ (fun _ => 0)
      [{ ticker := "A", shares := 0, purchasePrice := 5, purchaseDate := "d",
         currentPrice := 3, currentValue := 0, gainLoss := 0, gainLossPct := some 0,
         notes := none }]
      (updateCurrentPriceStep 0
        { ticker := "A", shares := 0, purchasePrice := 5, purchaseDate := "d",
          currentPrice := 3, currentValue := 0, gainLoss := 0, gainLossPct := some 0,
          notes := none })).2.2.2
      (by simp [updateCurrentPrices, updateCurrentPricesFrom])

/-! ## Claim C10 -/

/-- C10: when the portfolio-table read throws (`DbGetResult.err`),
`checkPortfolioExists` returns `false` instead of propagating, so every
guarded operation — get/add/update/delete position and the import
dispatcher — answers 404 "Portfolio not found" (leaving the store
untouched), not a 500 storage error, whatever the actual table holds. -/
theorem C10_storage_error_becomes_404 (store : PositionStore)
    (userId portfolioId ticker : String) (payload updates : Item)
    (now : String) (rand : ℚ) (body contentType : String)
    (htmlBranch excelBranch csvBranch : ApiResponse) :
    checkPortfolioExists .err = false ∧
    getPositions .err store userId portfolioId = ⟨404, .errMsg "Portfolio not found"⟩ ∧
    addPosition .err store userId portfolioId payload now rand =
      (⟨404, .errMsg "Portfolio not found"⟩, store) ∧
    updatePosition .err store userId portfolioId ticker updates now rand =
      (⟨404, .errMsg "Portfolio not found"⟩, store) ∧
    deletePosition .err store userId portfolioId ticker =
      (⟨404, .errMsg "Portfolio not found"⟩, store) ∧
    importPortfolioData .err body contentType htmlBranch excelBranch csvBranch =
      ⟨404, .errMsg "Portfolio not found"⟩ := by
  refine ⟨rfl, ?_, ?_, ?_, ?_, ?_⟩ <;>
    simp [getPositions, addPosition, updatePosition, deletePosition,
      importPortfolioData, checkPortfolioExists]

/-! ## Writer lemmas -/

theorem findPositionItem_append (s e : PositionStore) (pid tk : String) :
    findPositionItem (s ++ e) pid tk =
      (findPositionItem s pid tk).orElse (fun _ => findPositionItem e pid tk) := by
  unfold findPositionItem
  induction s with
  | nil => simp [Option.orElse]
  | cons it rest ih =>
    by_cases h : itemHasKey it pid tk = true
    · simp [List.find?, h, Option.orElse]
    · simp only [List.cons_append, List.find?]
      rw [Bool.eq_false_iff.mpr h]
      exact ih

theorem keyExists_append_left {s : PositionStore} {pid tk : String}
    (h : keyExists s pid tk = true) (e : PositionStore) :
    keyExists (s ++ e) pid tk = true := by
  unfold keyExists at *
  rw [findPositionItem_append]
  rcases ho : findPositionItem s pid tk with _ | it
  · rw [ho] at h; simp at h
  · simp [ho, Option.orElse]

theorem importedItem_hasKey (userId portfolioId now : String) (p : ImportPosition) :
    itemHasKey (importedItem userId portfolioId now p) portfolioId p.ticker = true := by
  simp +decide [importedItem, itemHasKey, getAttr, List.find?]

theorem keyExists_insert_self (s : PositionStore) (userId portfolioId now : String)
    (p : ImportPosition) :
    keyExists (s ++ [importedItem userId portfolioId now p]) portfolioId p.ticker = true := by
  unfold keyExists
  rw [findPositionItem_append]
  rcases ho : findPositionItem s portfolioId p.ticker with _ | it
  · simp [Option.orElse, findPositionItem, List.find?, importedItem_hasKey]
  · simp [ho, Option.orElse]

/-- The store a save loop leaves behind is the input store plus appended
rows. -/
theorem savePositionsLoop_store_extends (userId portfolioId now : String)
    (ps : List ImportPosition) (store : PositionStore) (results : ImportResults) :
    ∃ ext, (savePositionsLoop userId portfolioId now ps store results).1 = store ++ ext := by
  induction ps generalizing store results with
  | nil => exact ⟨[], by simp [savePositionsLoop]⟩
  | cons p rest ih =>
    unfold savePositionsLoop
    by_cases h : keyExists store portfolioId p.ticker = true
    · simpa [h] using ih store _
    · rw [Bool.eq_false_iff.mpr h]
      simp only [Bool.false_eq_true, if_false]
      obtain ⟨ext, hext⟩ := ih (store ++ [importedItem userId portfolioId now p])
        { results with addedPositions := results.addedPositions + 1 }
      refine ⟨[importedItem userId portfolioId now p] ++ ext, ?_⟩
      rw [hext, List.append_assoc]

/-- After a save loop, every row of the batch has its key present in the
resulting store. -/
theorem savePositionsLoop_keys_present (userId portfolioId now : String)
    (ps : List ImportPosition) (store : PositionStore) (results : ImportResults)
    (p : ImportPosition) (hp : p ∈ ps) :
    keyExists (savePositionsLoop userId portfolioId now ps store results).1
      portfolioId p.ticker = true := by
  induction ps generalizing store results with
  | nil => simp at hp
  | cons q rest ih =>
    unfold savePositionsLoop
    rcases List.mem_cons.mp hp with hpq | hprest
    · subst hpq
      by_cases h : keyExists store portfolioId p.ticker = true
      · rw [h]
        simp only [if_true]
        obtain ⟨ext, hext⟩ := savePositionsLoop_store_extends userId portfolioId now rest store
          { results with warnings := results.warnings ++ [dupWarning p] }
        rw [hext]
        exact keyExists_append_left h ext
      · rw [Bool.eq_false_iff.mpr h]
        simp only [Bool.false_eq_true, if_false]
        obtain ⟨ext, hext⟩ := savePositionsLoop_store_extends userId portfolioId now rest
          (store ++ [importedItem userId portfolioId now p])
          { results with addedPositions := results.addedPositions + 1 }
        rw [hext]
        exact keyExists_append_left (keyExists_insert_self store userId portfolioId now p) ext
    · by_cases h : keyExists store portfolioId q.ticker = true
      · rw [h]
        simp only [if_true]
        exact ih _ _ hprest
      · rw [Bool.eq_false_iff.mpr h]
        simp only [Bool.false_eq_true, if_false]
        exact ih _ _ hprest

/-- A save loop in which every row's key is already present inserts
nothing: the store is untouched, `addedPositions` (and every other
counter) is unchanged, and each row appends its duplicate warning in
order. -/
theorem savePositionsLoop_all_duplicates (userId portfolioId now : String)
    (ps : List ImportPosition) (store : PositionStore) (results : ImportResults)
    (h : ∀ p ∈ ps, keyExists store portfolioId p.ticker = true) :
    savePositionsLoop userId portfolioId now ps store results =
      (store, { results with warnings := results.warnings ++ dupWarnings ps }) := by
  induction ps generalizing results with
  | nil => simp [savePositionsLoop, dupWarnings]
  | cons p rest ih =>
    unfold savePositionsLoop
    rw [h p (List.mem_cons_self p rest)]
    simp only [if_true]
    rw [ih _ (fun q hq => h q (List.mem_cons_of_mem p hq))]
    simp [dupWarnings, dupWarning]

/-! ## Enrichment tally lemmas -/

theorem enrichWithTicker_addedPositions (quoteData : String → Option StockData)
    (ticker suffix : String) (position : ImportPosition) (results : ImportResults) :
    ((enrichWithTicker quoteData ticker suffix position results).2).addedPositions =
      results.addedPositions := by
  unfold enrichWithTicker
  rcases quoteData ticker with _ | sd
  · simp
  · by_cases hp : sd.price ≠ 0
    · by_cases hb : position.purchasePrice = 0 <;> simp [hp, hb]
    · simp [hp]

theorem enrichStep_addedPositions (search : String → Option (List YahooQuote))
    (quoteData : String → Option StockData)
    (acc : List ImportPosition × ImportResults) (p : ImportPosition) :
    ((enrichStep search quoteData acc p).2).addedPositions = acc.2.addedPositions := by
  unfold enrichStep
  by_cases h1 : p.ticker = "" ∧ (p.companyName.getD "") ≠ ""
  · rcases hl : lookupTickerByCompanyName (search (p.companyName.getD "")) with _ | ti
    · simp [h1, hl]
    · by_cases hs : ti.symbol ≠ ""
      · simp [h1, hl, hs, enrichWithTicker_addedPositions]
      · simp [h1, hl, hs]
  · by_cases h2 : p.ticker ≠ ""
    · simp [h1, h2, enrichWithTicker_addedPositions]
    · simp [h1, h2]

theorem enrichFold_addedPositions (search : String → Option (List YahooQuote))
    (quoteData : String → Option StockData)
    (ps : List ImportPosition) (acc : List ImportPosition × ImportResults) :
    ((ps.foldl (enrichStep search quoteData) acc).2).addedPositions =
      acc.2.addedPositions := by
  induction ps generalizing acc with
  | nil => rfl
  | cons p rest ih =>
    rw [List.foldl_cons, ih]
    exact enrichStep_addedPositions search quoteData acc p

/-- Enrichment never increments `addedPositions`: the tally it returns
always reports 0 added rows (only the writer increments it). -/
theorem enrich_addedPositions_zero (search : String → Option (List YahooQuote))
    (quoteData : String → Option StockData) (ps : List ImportPosition) :
    (enrichPositionsWithYahooFinance search quoteData ps).importResults.addedPositions = 0 := by
  unfold enrichPositionsWithYahooFinance
  exact enrichFold_addedPositions search quoteData ps _

/-! ## Claim C2 -/

/-- C2: re-importing the same batch against the store left by the
first import changes nothing: the second run's store equals the first run's
store, its report carries `addedPositions = 0` (enrichment initialises
the tally with 0 added and the writer's conditional insert fails on every
row), and every row of the batch surfaces as a duplicate warning, in
order. -/
theorem C2_reimport_idempotent (search : String → Option (List YahooQuote))
    (quoteData : String → Option StockData)
    (userId portfolioId now1 now2 : String)
    (candidates : List ImportPosition) (store : PositionStore) :
    let enr := enrichPositionsWithYahooFinance search quoteData candidates
    let run1 := saveImportedPositions userId portfolioId now1 enr store
    let run2 := saveImportedPositions userId portfolioId now2 enr run1.2
    run2.2 = run1.2 ∧
    run2.1 = ⟨200, .importReport "Portfolio data imported successfully"
      { totalPositions := enr.importResults.totalPositions
        validPositions := enr.importResults.validPositions
        addedPositions := 0
        errors := enr.importResults.errors
        warnings := enr.importResults.warnings ++ dupWarnings enr.enrichedPositions }⟩ := by
  intro enr run1 run2
  have hkeys : ∀ p ∈ enr.enrichedPositions, keyExists run1.2 portfolioId p.ticker = true :=
    fun p hp => savePositionsLoop_keys_present userId portfolioId now1
      enr.enrichedPositions store enr.importResults p hp
  have hdup := savePositionsLoop_all_duplicates userId portfolioId now2
    enr.enrichedPositions run1.2 enr.importResults hkeys
  have hz : enr.importResults.addedPositions = 0 :=
    enrich_addedPositions_zero search quoteData candidates
  constructor
  · show (savePositionsLoop userId portfolioId now2
      enr.enrichedPositions run1.2 enr.importResults).1 = run1.2
    rw [hdup]
  · show (⟨200, .importReport "Portfolio data imported successfully"
      (savePositionsLoop userId portfolioId now2
        enr.enrichedPositions run1.2 enr.importResults).2⟩ : ApiResponse) = _
    rw [hdup]
    rcases hr : enr.importResults with ⟨tot, valid, added, errs, warns⟩
    rw [hr] at hz
    simp only at hz
    subst hz
    rfl

/-! ## Claim C4 -/

/-- C4 counterexample: on a duplicate row the writer leaves every numeric
counter of the batch result — `totalPositions`, `validPositions`,
`addedPositions`, `errors` — exactly as it was: no "skipped/duplicate"
count exists in `ImportResults`, so none is incremented; the skip is
recorded only by the warning. -/
theorem C4_no_duplicate_counter :
    savePositionsLoop "user-1" "pf" "2024-01-03"
      [{ ticker := "AAPL", companyName := none, shares := 10, purchasePrice := 100,
         purchaseDate := "2024-01-02", currentPrice := some 110, notes := none }]
      [[("portfolioId", AttrVal.str "pf"), ("ticker", AttrVal.str "AAPL"),
        ("userId", AttrVal.str "user-1")]]
      { totalPositions := 1, validPositions := 1, addedPositions := 0,
        errors := 0, warnings := [] } =
    ([[("portfolioId", AttrVal.str "pf"), ("ticker", AttrVal.str "AAPL"),
        ("userId", AttrVal.str "user-1")]],
      { totalPositions := 1, validPositions := 1, addedPositions := 0,
        errors := 0, warnings := ["Position for AAPL already exists in portfolio"] }) := by
  simp +decide [savePositionsLoop, keyExists, findPositionItem, itemHasKey, getAttr,
    List.find?, dupWarning]

/-- C4 amended: on a pre-existing `(portfolioId, ticker)` key the writer
skips the row without touching the store, appends the duplicate warning
naming the ticker, leaves `errors` (and every other counter) unchanged,
and continues with the remaining rows.  There is no separate
skipped/duplicate counter; the skip is visible only as the warning and as
`addedPositions` not being incremented. -/
theorem C4_duplicate_row_skipped (userId portfolioId now : String)
    (p : ImportPosition) (rest : List ImportPosition)
    (store : PositionStore) (results : ImportResults)
    (h : keyExists store portfolioId p.ticker = true) :
    savePositionsLoop userId portfolioId now (p :: rest) store results =
      savePositionsLoop userId portfolioId now rest store
        { results with warnings := results.warnings ++ [dupWarning p] } := by
  conv_lhs => rw [savePositionsLoop]
  rw [h]
  simp

/-- C4 witness: `C4_duplicate_row_skipped` at a concrete duplicate. -/
theorem C4_duplicate_row_skipped_witness :
    savePositionsLoop "u2" "p2" "2024-02-01"
      [{ ticker := "MSFT", companyName := none, shares := 5, purchasePrice := 300,
         purchaseDate := "2024-01-15", currentPrice := some 310, notes := some "n" }]
      [[("portfolioId", AttrVal.str "p2"), ("ticker", AttrVal.str "MSFT"),
        ("userId", AttrVal.str "u2")]]
      { totalPositions := 3, validPositions := 2, addedPositions := 1,
        errors := 2, warnings := ["w0"] } =
    ([[("portfolioId", AttrVal.str "p2"), ("ticker", AttrVal.str "MSFT"),
        ("userId", AttrVal.str "u2")]],
      { totalPositions := 3, validPositions := 2, addedPositions := 1,
        errors := 2, warnings := ["w0", "Position for MSFT already exists in portfolio"] }) := by
  rw [C4_duplicate_row_skipped "u2" "p2" "2024-02-01"
    { ticker := "MSFT", companyName := none, shares := 5, purchasePrice := 300,
      purchaseDate := "2024-01-15", currentPrice := some 310, notes := some "n" }
    []
    [[("portfolioId", AttrVal.str "p2"), ("ticker", AttrVal.str "MSFT"),
      ("userId", AttrVal.str "u2")]]
    { totalPositions := 3, validPositions := 2, addedPositions := 1,
      errors := 2, warnings := ["w0"] }
    (by decide)]
  simp [savePositionsLoop, dupWarning]

/-! ## Claim C5 -/

theorem find?_first_of_prefix_none {α} (p : α → Bool) (pre : List α) (q : α)
    (post : List α) (hpre : ∀ r ∈ pre, p r = false) (hq : p q = true) :
    (pre ++ q :: post).find? p = some q := by
  induction pre with
  | nil => simp [List.find?, hq]
  | cons a rest ih =>
    have ha := hpre a (List.mem_cons_self a rest)
    simp only [List.cons_append, List.find?, ha]
    exact ih (fun r hr => hpre r (List.mem_cons_of_mem a hr))

/-- C5: the company-name resolver takes the symbol of the first search
result typed "EQUITY"; when no equity result exists it takes the first
result typed "ETF"; and when the lookup yields nothing, a lot with no
ticker but a non-empty company name is rejected — not appended to the
enriched batch — with a warning naming that company and an error count
bump. -/
theorem C5_company_name_resolution
    (pre post pre2 post2 : List YahooQuote) (q e : YahooQuote)
    (search : String → Option (List YahooQuote))
    (quoteData : String → Option StockData)
    (position : ImportPosition) (enriched : List ImportPosition)
    (results : ImportResults) :
    (q.quoteType = "EQUITY" → (∀ r ∈ pre, r.quoteType ≠ "EQUITY") →
      lookupTickerByCompanyName (some (pre ++ q :: post)) =
        some ⟨q.symbol, strOr q.shortname q.longname, q.exchange, q.score⟩) ∧
    (e.quoteType = "ETF" →
      (∀ r ∈ pre2 ++ e :: post2, r.quoteType ≠ "EQUITY") →
      (∀ r ∈ pre2, r.quoteType ≠ "ETF") →
      lookupTickerByCompanyName (some (pre2 ++ e :: post2)) =
        some ⟨e.symbol, strOr e.shortname e.longname, e.exchange, e.score⟩) ∧
    (position.ticker = "" → position.companyName.getD "" ≠ "" →
      lookupTickerByCompanyName (search (position.companyName.getD "")) = none →
      enrichStep search quoteData (enriched, results) position =
        (enriched, { results with
          warnings := results.warnings ++
            ["Could not find ticker for company \x22" ++ position.companyName.getD "" ++ "\x22"]
          errors := results.errors + 1 })) := by
  refine ⟨?_, ?_, ?_⟩
  · intro hq hpre
    have hfind : (pre ++ q :: post).find? (fun r => decide (r.quoteType = "EQUITY")) = some q :=
      find?_first_of_prefix_none _ pre q post
        (fun r hr => by simp [hpre r hr]) (by simp [hq])
    simp [lookupTickerByCompanyName, hfind]
  · intro he hnoeq hpre2
    have hfe : (pre2 ++ e :: post2).find? (fun r => decide (r.quoteType = "EQUITY")) = none := by
      rw [List.find?_eq_none]
      intro r hr
      simp [hnoeq r hr]
    have hfet : (pre2 ++ e :: post2).find? (fun r => decide (r.quoteType = "ETF")) = some e :=
      find?_first_of_prefix_none _ pre2 e post2
        (fun r hr => by simp [hpre2 r hr]) (by simp [he])
    simp [lookupTickerByCompanyName, hfe, hfet]
  · intro ht hc hl
    simp [enrichStep, ht, hc, hl]

/-- C5 witness: a search response whose first equity sits after an ETF, a
response holding only an index and an ETF, and a concrete rejected lot. -/
theorem C5_company_name_resolution_witness :
    lookupTickerByCompanyName (some
      [⟨"VT", some "Vanguard Total", none, some "PCX", "ETF", none⟩,
       ⟨"AAPL", some "Apple Inc.", none, some "NMS", "EQUITY", some 100⟩]) =
      some ⟨"AAPL", some "Apple Inc.", some "NMS", some 100⟩ ∧
    lookupTickerByCompanyName (some
      [⟨"IDX1", none, none, some "X", "INDEX", none⟩,
       ⟨"VT", some "Vanguard Total", none, some "PCX", "ETF", none⟩]) =
      some ⟨"VT", some "Vanguard Total", some "PCX", none⟩ ∧
    enrichStep (fun _ => none) (fun _ => none)
      ([], ⟨1, 0, 0, 0, []⟩)
      ⟨"", some "Acme Holdings", 5, 10, "2024-01-02", none, some "n"⟩ =
      ([], ⟨1, 0, 0, 1, ["Could not find ticker for company \x22Acme Holdings\x22"]⟩) := by
  refine ⟨?_, ?_, ?_⟩
  · have h := (C5_company_name_resolution
      [⟨"VT", some "Vanguard Total", none, some "PCX", "ETF", none⟩] []
      [] []
      ⟨"AAPL", some "Apple Inc.", none, some "NMS", "EQUITY", some 100⟩
      ⟨"VT", some "Vanguard Total", none, some "PCX", "ETF", none⟩
      (fun _ => none) (fun _ => none)
      ⟨"", none, 1, 1, "d", none, none⟩
      [] ⟨0, 0, 0, 0, []⟩).1 rfl (by decide)
    simpa [strOr] using h
  · have h := (C5_company_name_resolution
      [] []
      [⟨"IDX1", none, none, some "X", "INDEX", none⟩] []
      ⟨"A", none, none, none, "EQUITY", none⟩
      ⟨"VT", some "Vanguard Total", none, some "PCX", "ETF", none⟩
      (fun _ => none) (fun _ => none)
      ⟨"", none, 1, 1, "d", none, none⟩
      [] ⟨0, 0, 0, 0, []⟩).2.1 rfl (by decide) (by decide)
    simpa [strOr] using h
  · have h := (C5_company_name_resolution [] [] [] []
      ⟨"A", none, none, none, "EQUITY", none⟩
      ⟨"A", none, none, none, "ETF", none⟩
      (fun _ => none) (fun _ => none)
      ⟨"", some "Acme Holdings", 5, 10, "2024-01-02", none, some "n"⟩
      [] ⟨1, 0, 0, 0, []⟩).2.2 rfl (by decide) rfl
    simpa using h

/-! ## Claim C6 -/

/-- C6: a candidate whose ticker is present is never dropped by
enrichment, whatever the quote oracle does: exactly one lot is appended
for it, keeping its ticker and shares, with `currentPrice` equal to the
quote price when a usable quote was obtained (non-zero price) and to the
lot's purchase price otherwise — so `currentPrice` is always set — and
with the error count untouched. -/
theorem C6_present_ticker_kept
    (search : String → Option (List YahooQuote))
    (quoteData : String → Option StockData)
    (position : ImportPosition) (enriched : List ImportPosition)
    (results : ImportResults) (h : position.ticker ≠ "") :
    ∃ lot : ImportPosition,
      (enrichStep search quoteData (enriched, results) position).1 = enriched ++ [lot] ∧
      lot.ticker = position.ticker ∧
      lot.shares = position.shares ∧
      lot.currentPrice = some (match quoteData position.ticker with
        | some sd => if sd.price ≠ 0 then sd.price else position.purchasePrice
        | none => position.purchasePrice) ∧
      (enrichStep search quoteData (enriched, results) position).2.errors = results.errors := by
  have hcond : ¬ (position.ticker = "" ∧ (position.companyName.getD "") ≠ "") :=
    fun hc => h hc.1
  rcases hq : quoteData position.ticker with _ | sd
  · refine ⟨enrichedLot position.ticker position position.purchasePrice 0 "", ?_, rfl, rfl, ?_, ?_⟩
    · simp [enrichStep, hcond, h, enrichWithTicker, hq]
    · simp [enrichedLot, hq]
    · simp [enrichStep, hcond, h, enrichWithTicker, hq]
  · by_cases hp : sd.price = 0
    · refine ⟨enrichedLot position.ticker position position.purchasePrice 0 "", ?_, rfl, rfl, ?_, ?_⟩
      · simp [enrichStep, hcond, h, enrichWithTicker, hq, hp]
      · simp [enrichedLot, hq, hp]
      · simp [enrichStep, hcond, h, enrichWithTicker, hq, hp]
    · by_cases hb : position.purchasePrice = 0
      · refine ⟨enrichedLot position.ticker position sd.price sd.price "", ?_, rfl, rfl, ?_, ?_⟩
        · simp [enrichStep, hcond, h, enrichWithTicker, hq, hp, hb]
        · simp [enrichedLot, hq, hp]
        · simp [enrichStep, hcond, h, enrichWithTicker, hq, hp, hb]
      · refine ⟨enrichedLot position.ticker position position.purchasePrice sd.price "", ?_, rfl, rfl, ?_, ?_⟩
        · simp [enrichStep, hcond, h, enrichWithTicker, hq, hp, hb]
        · simp [enrichedLot, hq, hp]
        · simp [enrichStep, hcond, h, enrichWithTicker, hq, hp, hb]

/-- C6 witness: `C6_present_ticker_kept` for a present ticker whose quote
lookup fails entirely. -/
theorem C6_present_ticker_kept_witness :
    ∃ lot : ImportPosition,
      (enrichStep (fun _ => none) (fun _ => none)
        ([], ⟨1, 0, 0, 0, []⟩)
        ⟨"AAPL", none, 10, 100, "2024-01-02", none, some "n"⟩).1 = [] ++ [lot] ∧
      lot.ticker = (⟨"AAPL", none, 10, 100, "2024-01-02", none, some "n"⟩ : ImportPosition).ticker ∧
      lot.shares = (⟨"AAPL", none, 10, 100, "2024-01-02", none, some "n"⟩ : ImportPosition).shares ∧
      lot.currentPrice = some (match (fun _ => none : String → Option StockData) "AAPL" with
        | some sd => if sd.price ≠ 0 then sd.price
            else (⟨"AAPL", none, 10, 100, "2024-01-02", none, some "n"⟩ : ImportPosition).purchasePrice
        | none => (⟨"AAPL", none, 10, 100, "2024-01-02", none, some "n"⟩ : ImportPosition).purchasePrice) ∧
      (enrichStep (fun _ => none) (fun _ => none)
        ([], ⟨1, 0, 0, 0, []⟩)
        ⟨"AAPL", none, 10, 100, "2024-01-02", none, some "n"⟩).2.errors =
          (⟨1, 0, 0, 0, []⟩ : ImportResults).errors :=
  C6_present_ticker_kept (fun _ => none) (fun _ => none)
    ⟨"AAPL", none, 10, 100, "2024-01-02", none, some "n"⟩ [] ⟨1, 0, 0, 0, []⟩ (by decide)

/-! ## Claim C7 -/

theorem getCell_of_find?_none (base : ExcelRow) (k : String)
    (h : base.find? (fun c => decide (c.1 = k)) = none) :
    getCell base k = "" := by
  unfold getCell
  rw [h]

theorem getCell_append_ne (base : ExcelRow) (hdr v k : String) (h : hdr ≠ k) :
    getCell (base ++ [(hdr, v)]) k = getCell base k := by
  unfold getCell
  rw [List.find?_append]
  have hr : List.find? (fun c => decide (c.1 = k)) [(hdr, v)] = none := by
    simp [List.find?, h]
  rw [hr, Option.or_none]

theorem getCell_append_self (base : ExcelRow) (k v : String)
    (h : base.find? (fun c => decide (c.1 = k)) = none) :
    getCell (base ++ [(k, v)]) k = v := by
  unfold getCell
  rw [List.find?_append, h]
  simp [List.find?]

theorem firstCell_append_ne (base : ExcelRow) (hdr v : String)
    (keys : List String) (dflt : String) (h : ∀ k ∈ keys, hdr ≠ k) :
    firstCell (base ++ [(hdr, v)]) keys dflt = firstCell base keys dflt := by
  induction keys with
  | nil => rfl
  | cons k ks ih =>
    unfold firstCell
    rw [getCell_append_ne base hdr v k (h k (List.mem_cons_self k ks))]
    rw [ih (fun k' hk' => h k' (List.mem_cons_of_mem k hk'))]

theorem sharesChain_alias_equiv (v : String) (base : ExcelRow)
    (hb : ∀ a ∈ (["Shares", "Quantity", "Holdings Quantity", "Amount", "Units"] : List String),
      base.find? (fun c => decide (c.1 = a)) = none) :
    firstCell (base ++ [("Holdings Quantity", v)])
      ["Shares", "Quantity", "Holdings Quantity", "Amount", "Units"] "0" =
    firstCell (base ++ [("Shares", v)])
      ["Shares", "Quantity", "Holdings Quantity", "Amount", "Units"] "0" := by
  have h1 : getCell base "Shares" = "" := getCell_of_find?_none _ _ (hb _ (by decide))
  have h2 : getCell base "Quantity" = "" := getCell_of_find?_none _ _ (hb _ (by decide))
  have h3 : getCell base "Holdings Quantity" = "" := getCell_of_find?_none _ _ (hb _ (by decide))
  have h4 : getCell base "Amount" = "" := getCell_of_find?_none _ _ (hb _ (by decide))
  have h5 : getCell base "Units" = "" := getCell_of_find?_none _ _ (hb _ (by decide))
  have eA : getCell (base ++ [("Holdings Quantity", v)]) "Holdings Quantity" = v :=
    getCell_append_self base _ v (hb _ (by decide))
  have eB : getCell (base ++ [("Shares", v)]) "Shares" = v :=
    getCell_append_self base _ v (hb _ (by decide))
  have gA1 : getCell (base ++ [("Holdings Quantity", v)]) "Shares" = "" := by
    rw [getCell_append_ne base "Holdings Quantity" v "Shares" (by decide)]; exact h1
  have gA2 : getCell (base ++ [("Holdings Quantity", v)]) "Quantity" = "" := by
    rw [getCell_append_ne base "Holdings Quantity" v "Quantity" (by decide)]; exact h2
  have gA4 : getCell (base ++ [("Holdings Quantity", v)]) "Amount" = "" := by
    rw [getCell_append_ne base "Holdings Quantity" v "Amount" (by decide)]; exact h4
  have gA5 : getCell (base ++ [("Holdings Quantity", v)]) "Units" = "" := by
    rw [getCell_append_ne base "Holdings Quantity" v "Units" (by decide)]; exact h5
  have gB2 : getCell (base ++ [("Shares", v)]) "Quantity" = "" := by
    rw [getCell_append_ne base "Shares" v "Quantity" (by decide)]; exact h2
  have gB3 : getCell (base ++ [("Shares", v)]) "Holdings Quantity" = "" := by
    rw [getCell_append_ne base "Shares" v "Holdings Quantity" (by decide)]; exact h3
  have gB4 : getCell (base ++ [("Shares", v)]) "Amount" = "" := by
    rw [getCell_append_ne base "Shares" v "Amount" (by decide)]; exact h4
  have gB5 : getCell (base ++ [("Shares", v)]) "Units" = "" := by
    rw [getCell_append_ne base "Shares" v "Units" (by decide)]; exact h5
  simp only [firstCell, gA1, gA2, eA, gA4, gA5, eB, gB2, gB3, gB4, gB5]
  by_cases hv : v = "" <;> simp [hv]

/-- Per-row core of the alias-equivalence: a row whose base cells use no
shares alias yields the same candidate whether the shares column is
headed "Holdings Quantity" or "Shares". -/
theorem excelRowToCandidate_shares_alias (tI tL v : String) (base : ExcelRow)
    (hb : ∀ a ∈ (["Shares", "Quantity", "Holdings Quantity", "Amount", "Units"] : List String),
      base.find? (fun c => decide (c.1 = a)) = none) :
    excelRowToCandidate tI tL (base ++ [("Holdings Quantity", v)]) =
      excelRowToCandidate tI tL (base ++ [("Shares", v)]) := by
  unfold excelRowToCandidate
  rw [firstCell_append_ne base "Holdings Quantity" v
        ["Symbol", "Ticker", "Stock Symbol", "Security", "Security Name"] "" (by decide),
      firstCell_append_ne base "Shares" v
        ["Symbol", "Ticker", "Stock Symbol", "Security", "Security Name"] "" (by decide),
      firstCell_append_ne base "Holdings Quantity" v
        ["Company", "Name", "Company Name", "Description"] "" (by decide),
      firstCell_append_ne base "Shares" v
        ["Company", "Name", "Company Name", "Description"] "" (by decide),
      firstCell_append_ne base "Holdings Quantity" v
        ["Purchase Price", "Avg Buy Rate", "Price", "Cost", "Cost/Share"] "0" (by decide),
      firstCell_append_ne base "Shares" v
        ["Purchase Price", "Avg Buy Rate", "Price", "Cost", "Cost/Share"] "0" (by decide),
      firstCell_append_ne base "Holdings Quantity" v
        ["Purchase Date", "Date"] tI (by decide),
      firstCell_append_ne base "Shares" v
        ["Purchase Date", "Date"] tI (by decide),
      sharesChain_alias_equiv v base hb]

/-- C7 counterexample: Excel header aliases are matched case-sensitively:
with identical data, the upload headed "SHARES" yields no candidate at
all (the shares cell is never found, so the row fails `shares > 0`),
while the upload headed "Shares" yields the lot — so aliases are not
recognized case-insensitively. -/
theorem C7_excel_headers_case_sensitive :
    processExcelData "2024-01-01" "1/1/2024" [[("Symbol", "AAPL"), ("SHARES", "10")]] = [] ∧
    processExcelData "2024-01-01" "1/1/2024" [[("Symbol", "AAPL"), ("Shares", "10")]] =
      [{ ticker := "AAPL", companyName := none, shares := 10, purchasePrice := 0,
         purchaseDate := "2024-01-01", currentPrice := none,
         notes := some "Imported from Excel on 1/1/2024" }] := by
  constructor
  · simp +decide [processExcelData, excelRowToCandidate, firstCell, getCell, parseFloatQ,
      digitsVal, List.dropWhile, List.takeWhile, List.filterMap]
  · simp +decide [processExcelData, excelRowToCandidate, firstCell, getCell, parseFloatQ,
      digitsVal, jsTrim, jsIsSpace, List.dropWhile, List.takeWhile, List.filterMap]

/-- C7 amended: in the Excel path, header aliases are matched by exact
(case-sensitive) property name, and two uploads with identical data rows
whose shares headers are drawn from the alias list with exact casing
("Holdings Quantity" vs "Shares") produce identical candidate lots; in
the CSV path, header matching is case-insensitive — it depends only on
the lowercased header text. -/
theorem C7_shares_header_alias_equiv (tI tL : String)
    (rows : List (ExcelRow × String)) (pats : List String) (col col2 : String)
    (hrows : ∀ r ∈ rows,
      ∀ a ∈ (["Shares", "Quantity", "Holdings Quantity", "Amount", "Units"] : List String),
        r.1.find? (fun c => decide (c.1 = a)) = none)
    (hlow : lowerStr col = lowerStr col2) :
    processExcelData tI tL (rows.map (fun r => r.1 ++ [("Holdings Quantity", r.2)])) =
      processExcelData tI tL (rows.map (fun r => r.1 ++ [("Shares", r.2)])) ∧
    regexTestCI pats col = regexTestCI pats col2 := by
  constructor
  · unfold processExcelData
    induction rows with
    | nil => rfl
    | cons r rs ih =>
      simp only [List.map_cons, List.filterMap_cons]
      rw [excelRowToCandidate_shares_alias tI tL r.2 r.1
          (hrows r (List.mem_cons_self r rs)),
        ih (fun r' hr' => hrows r' (List.mem_cons_of_mem r hr'))]
  · unfold regexTestCI jsIncludes
    rw [hlow]

/-- C7 witness: `C7_shares_header_alias_equiv` on one concrete row and the
concrete headers "SHARES" / "Shares". -/
theorem C7_shares_header_alias_equiv_witness :
    processExcelData "2024-01-01" "1/1/2024"
      (([([("Symbol", "AAPL")], "10")] : List (ExcelRow × String)).map
        (fun r => r.1 ++ [("Holdings Quantity", r.2)])) =
    processExcelData "2024-01-01" "1/1/2024"
      (([([("Symbol", "AAPL")], "10")] : List (ExcelRow × String)).map
        (fun r => r.1 ++ [("Shares", r.2)])) ∧
    regexTestCI ["shares", "quantity", "amount", "units"] "SHARES" =
      regexTestCI ["shares", "quantity", "amount", "units"] "Shares" :=
  C7_shares_header_alias_equiv "2024-01-01" "1/1/2024"
    [([("Symbol", "AAPL")], "10")] ["shares", "quantity", "amount", "units"]
    "SHARES" "Shares" (by decide) (by decide)

/-! ## Attribute-write lemmas -/

theorem getAttr_setAttr_self (it : Item) (k : String) (v : AttrVal) :
    getAttr (setAttr it k v) k = some v := by
  induction it with
  | nil => simp [setAttr, getAttr, List.find?]
  | cons c rest ih =>
    unfold setAttr
    by_cases hc : c.1 = k
    · rw [if_pos hc]
      unfold getAttr
      simp [List.find?]
    · rw [if_neg hc]
      unfold getAttr at ih ⊢
      simp only [List.find?]
      rw [show (decide (c.1 = k)) = false by simp [hc]]
      exact ih

theorem getAttr_setAttr_ne (it : Item) (k : String) (v : AttrVal) (k' : String)
    (h : k ≠ k') :
    getAttr (setAttr it k v) k' = getAttr it k' := by
  induction it with
  | nil => simp [setAttr, getAttr, List.find?, h]
  | cons c rest ih =>
    unfold setAttr
    by_cases hc : c.1 = k
    · rw [if_pos hc]
      unfold getAttr
      simp only [List.find?]
      rw [show (decide (k = k')) = false by simp [h],
        show (decide (c.1 = k')) = false by simp [hc, h]]
    · rw [if_neg hc]
      unfold getAttr at ih ⊢
      simp only [List.find?]
      by_cases hck : c.1 = k'
      · simp [hck]
      · rw [show (decide (c.1 = k')) = false by simp [hck]]
        exact ih

theorem getAttr_applyAttrs_not_mem (it : Item) (attrs : List (String × AttrVal))
    (k : String) (h : ∀ kv ∈ attrs, kv.1 ≠ k) :
    getAttr (applyAttrs it attrs) k = getAttr it k := by
  induction attrs generalizing it with
  | nil => rfl
  | cons kv rest ih =>
    unfold applyAttrs at ih ⊢
    simp only [List.foldl_cons]
    rw [ih (setAttr it kv.1 kv.2) (fun kv' hkv' => h kv' (List.mem_cons_of_mem kv hkv')),
      getAttr_setAttr_ne it kv.1 kv.2 k (h kv (List.mem_cons_self kv rest))]

/-- The item `addPosition` stores keeps the payload's ticker value
untouched: no mutation in the block writes the `ticker` attribute. -/
theorem addPositionItem_ticker (payload : Item) (userId portfolioId now : String)
    (rand : ℚ) :
    getAttr (addPositionItem payload userId portfolioId now rand) "ticker" =
      getAttr payload "ticker" := by
  unfold addPositionItem
  dsimp only
  rw [getAttr_setAttr_ne _ _ _ _ (by decide), getAttr_setAttr_ne _ _ _ _ (by decide),
    getAttr_setAttr_ne _ _ _ _ (by decide)]
  split
  · rw [getAttr_setAttr_ne _ _ _ _ (by decide), getAttr_setAttr_ne _ _ _ _ (by decide),
      getAttr_setAttr_ne _ _ _ _ (by decide), getAttr_setAttr_ne _ _ _ _ (by decide),
      getAttr_setAttr_ne _ _ _ _ (by decide)]
  · rw [getAttr_setAttr_ne _ _ _ _ (by decide), getAttr_setAttr_ne _ _ _ _ (by decide),
      getAttr_setAttr_ne _ _ _ _ (by decide), getAttr_setAttr_ne _ _ _ _ (by decide)]

/-! ## Claim C8 -/

/-- C8 counterexample: neither ingestion path upper-cases tickers.  The
Excel import keeps "aapl" lower-case in the candidate lot, and
`addPosition` persists the payload's "aapl" unchanged (and
"aapl" ≠ "AAPL").  Upper-casing happens only in the React form handlers,
not in anything the backend stores. -/
theorem C8_ticker_stored_lowercase :
    processExcelData "2024-01-01" "1/1/2024" [[("Symbol", "aapl"), ("Shares", "10")]] =
      [{ ticker := "aapl", companyName := none, shares := 10, purchasePrice := 0,
         purchaseDate := "2024-01-01", currentPrice := none,
         notes := some "Imported from Excel on 1/1/2024" }] ∧
    ((addPosition (.ok true) ([] : PositionStore) "u1" "pf"
        [("ticker", AttrVal.str "aapl"), ("shares", AttrVal.num 5),
         ("purchasePrice", AttrVal.num 10)] "t0" 0).2).map
      (fun it => getAttr it "ticker") = [some (AttrVal.str "aapl")] ∧
    ("aapl" : String) ≠ "AAPL" := by
  refine ⟨?_, ?_, by decide⟩
  · simp +decide [processExcelData, excelRowToCandidate, firstCell, getCell, parseFloatQ,
      digitsVal, jsTrim, jsIsSpace, List.dropWhile, List.takeWhile, List.filterMap]
  · simp +decide [addPosition, addPositionItem, checkPortfolioExists, truthyOpt,
      AttrVal.truthy, toNumber, getAttr, setAttr, List.find?]

/-- C8 amended: tickers are persisted exactly as supplied.  The
Excel import stores the trimmed raw ticker cell with no case conversion, and a
successful `addPosition` appends a row whose `ticker` attribute is the
payload's ticker value unchanged. -/
theorem C8_ticker_preserved (tI tL : String) (row : ExcelRow) (cand : ImportPosition)
    (pg : DbGetResult) (store : PositionStore) (userId portfolioId now : String)
    (payload : Item) (rand : ℚ)
    (hc : excelRowToCandidate tI tL row = some cand)
    (hg : checkPortfolioExists pg = true)
    (ht : truthyOpt (getAttr payload "ticker") = true)
    (hs : truthyOpt (getAttr payload "shares") = true)
    (hn1 : (toNumber (getAttr payload "shares")).isNone = false)
    (hn2 : (toNumber (getAttr payload "purchasePrice")).isNone = false)
    (hex : List.find? (fun it =>
      getAttr it "portfolioId" = some (.str portfolioId) ∧
      getAttr it "ticker" = some ((getAttr payload "ticker").getD (.str ""))) store = none) :
    cand.ticker = jsTrim (firstCell row
      ["Symbol", "Ticker", "Stock Symbol", "Security", "Security Name"] "") ∧
    (addPosition pg store userId portfolioId payload now rand).2 =
      store ++ [addPositionItem payload userId portfolioId now rand] ∧
    getAttr (addPositionItem payload userId portfolioId now rand) "ticker" =
      getAttr payload "ticker" := by
  refine ⟨?_, ?_, addPositionItem_ticker payload userId portfolioId now rand⟩
  · unfold excelRowToCandidate at hc
    dsimp only at hc
    split at hc
    · split at hc
      · cases hc
        rfl
      · exact absurd hc (by simp)
    · exact absurd hc (by simp)
  · unfold addPosition
    rw [hg]
    simp only [Bool.not_true, Bool.false_eq_true, if_false, ite_false, ht, hs,
      hn1, hn2, Bool.not_false, Bool.or_self, Bool.false_or, Bool.or_false]
    rw [hex]
    simp

/-- C8 witness: `C8_ticker_preserved` on one concrete Excel row and one
concrete `addPosition` call. -/
theorem C8_ticker_preserved_witness :
    ({ ticker := "msft", companyName := none, shares := 3, purchasePrice := 0,
       purchaseDate := "2024-01-01", currentPrice := none,
       notes := some "Imported from Excel on 1/1/2024" } : ImportPosition).ticker =
      jsTrim (firstCell [("Symbol", " msft "), ("Shares", "3")]
        ["Symbol", "Ticker", "Stock Symbol", "Security", "Security Name"] "") ∧
    (addPosition (.ok true) ([] : PositionStore) "u1" "pf"
        [("ticker", AttrVal.str "msft"), ("shares", AttrVal.num 3),
         ("purchasePrice", AttrVal.num 7)] "t0" 0).2 =
      ([] : PositionStore) ++ [addPositionItem
        [("ticker", AttrVal.str "msft"), ("shares", AttrVal.num 3),
         ("purchasePrice", AttrVal.num 7)] "u1" "pf" "t0" 0] ∧
    getAttr (addPositionItem
        [("ticker", AttrVal.str "msft"), ("shares", AttrVal.num 3),
         ("purchasePrice", AttrVal.num 7)] "u1" "pf" "t0" 0) "ticker" =
      getAttr [("ticker", AttrVal.str "msft"), ("shares", AttrVal.num 3),
         ("purchasePrice", AttrVal.num 7)] "ticker" :=
  C8_ticker_preserved "2024-01-01" "1/1/2024"
    [("Symbol", " msft "), ("Shares", "3")]
    { ticker := "msft", companyName := none, shares := 3, purchasePrice := 0,
      purchaseDate := "2024-01-01", currentPrice := none,
      notes := some "Imported from Excel on 1/1/2024" }
    (.ok true) [] "u1" "pf" "t0"
    [("ticker", AttrVal.str "msft"), ("shares", AttrVal.num 3),
     ("purchasePrice", AttrVal.num 7)] 0
    (by simp +decide [excelRowToCandidate, firstCell, getCell, parseFloatQ,
      digitsVal, jsTrim, jsIsSpace, List.dropWhile, List.takeWhile])
    rfl (by decide) (by decide) (by decide) (by decide) rfl

/-! ## Claim C3 lemmas -/

/-- A row whose shares cell yields no positive number produces no
candidate. -/
theorem excelRowToCandidate_bad_shares (tI tL : String) (bad : ExcelRow)
    (hbad : ∀ q, parseFloatQ (firstCell bad
      ["Shares", "Quantity", "Holdings Quantity", "Amount", "Units"] "0") = some q →
      ¬ 0 < q) :
    excelRowToCandidate tI tL bad = none := by
  unfold excelRowToCandidate
  dsimp only
  rcases hsh : parseFloatQ (firstCell bad
      ["Shares", "Quantity", "Holdings Quantity", "Amount", "Units"] "0") with _ | q
  · rfl
  · dsimp only
    rw [if_neg]
    intro hc
    exact hbad q hsh hc.2

theorem length_filterMap_of_isSome {α β} (f : α → Option β) (l : List α)
    (h : ∀ r ∈ l, (f r).isSome = true) :
    (l.filterMap f).length = l.length := by
  induction l with
  | nil => rfl
  | cons a rest ih =>
    rcases ha : f a with _ | b
    · have := h a (List.mem_cons_self a rest)
      rw [ha] at this
      simp at this
    · rw [List.filterMap_cons_some ha]
      simp only [List.length_cons]
      rw [ih (fun r hr => h r (List.mem_cons_of_mem a hr))]

theorem enrichWithTicker_fst_ticker (quoteData : String → Option StockData)
    (t suffix : String) (position : ImportPosition) (results : ImportResults) :
    (enrichWithTicker quoteData t suffix position results).1.ticker = t := by
  unfold enrichWithTicker
  rcases quoteData t with _ | sd
  · rfl
  · by_cases hp : sd.price ≠ 0 <;> simp [hp, enrichedLot]

/-- For a lot with a present ticker, the loop body routes through the
quote section with the lot's own ticker and an empty provenance suffix. -/
theorem enrichStep_present (search : String → Option (List YahooQuote))
    (quoteData : String → Option StockData)
    (enriched : List ImportPosition) (results : ImportResults)
    (position : ImportPosition) (h : position.ticker ≠ "") :
    enrichStep search quoteData (enriched, results) position =
      (enriched ++ [(enrichWithTicker quoteData position.ticker "" position results).1],
       (enrichWithTicker quoteData position.ticker "" position results).2) := by
  unfold enrichStep
  rw [if_neg (fun hc => h hc.1), if_pos h]

/-- When a usable quote exists, the quote section counts the row valid and
leaves `errors` alone. -/
theorem enrichWithTicker_success_results (quoteData : String → Option StockData)
    (t suffix : String) (position : ImportPosition) (results : ImportResults)
    (sd : StockData) (hq : quoteData t = some sd) (hp : sd.price ≠ 0) :
    ((enrichWithTicker quoteData t suffix position results).2).validPositions =
      results.validPositions + 1 ∧
    ((enrichWithTicker quoteData t suffix position results).2).errors = results.errors ∧
    ((enrichWithTicker quoteData t suffix position results).2).totalPositions =
      results.totalPositions ∧
    ((enrichWithTicker quoteData t suffix position results).2).addedPositions =
      results.addedPositions := by
  unfold enrichWithTicker
  rw [hq]
  by_cases hb : position.purchasePrice = 0 <;> simp [hp, hb]

/-- Folding the enrichment step over lots that all have present tickers
and usable quotes: one lot is emitted per input (with the same ticker, in
order), every row is counted valid, and no errors are recorded. -/
theorem enrichFold_all_success (search : String → Option (List YahooQuote))
    (quoteData : String → Option StockData)
    (ps : List ImportPosition) (acc : List ImportPosition × ImportResults)
    (h : ∀ p ∈ ps, p.ticker ≠ "" ∧ ∃ sd, quoteData p.ticker = some sd ∧ sd.price ≠ 0) :
    ((ps.foldl (enrichStep search quoteData) acc).1).map (fun p => p.ticker) =
      acc.1.map (fun p => p.ticker) ++ ps.map (fun p => p.ticker) ∧
    ((ps.foldl (enrichStep search quoteData) acc).2).validPositions =
      acc.2.validPositions + ps.length ∧
    ((ps.foldl (enrichStep search quoteData) acc).2).errors = acc.2.errors := by
  induction ps generalizing acc with
  | nil => simp
  | cons p rest ih =>
    obtain ⟨ht, sd, hq, hp⟩ := h p (List.mem_cons_self p rest)
    have hrest := fun q hq' => h q (List.mem_cons_of_mem p hq')
    rw [List.foldl_cons]
    rcases acc with ⟨enr, res⟩
    rw [enrichStep_present search quoteData enr res p ht]
    obtain ⟨ihA, ihB, ihC⟩ := ih (enr ++ [(enrichWithTicker quoteData p.ticker "" p res).1],
      (enrichWithTicker quoteData p.ticker "" p res).2) hrest
    obtain ⟨hv, he, _, _⟩ :=
      enrichWithTicker_success_results quoteData p.ticker "" p res sd hq hp
    refine ⟨?_, ?_, ?_⟩
    · rw [ihA]
      simp [enrichWithTicker_fst_ticker, List.map_append]
    · rw [ihB, hv]
      simp only [List.length_cons]
      omega
    · rw [ihC, he]

theorem enrichWithTicker_totalPositions (quoteData : String → Option StockData)
    (t suffix : String) (position : ImportPosition) (results : ImportResults) :
    ((enrichWithTicker quoteData t suffix position results).2).totalPositions =
      results.totalPositions := by
  unfold enrichWithTicker
  rcases quoteData t with _ | sd
  · simp
  · by_cases hp : sd.price ≠ 0
    · by_cases hb : position.purchasePrice = 0 <;> simp [hp, hb]
    · simp [hp]

theorem enrichStep_totalPositions (search : String → Option (List YahooQuote))
    (quoteData : String → Option StockData)
    (acc : List ImportPosition × ImportResults) (p : ImportPosition) :
    ((enrichStep search quoteData acc p).2).totalPositions = acc.2.totalPositions := by
  unfold enrichStep
  by_cases h1 : p.ticker = "" ∧ (p.companyName.getD "") ≠ ""
  · rcases hl : lookupTickerByCompanyName (search (p.companyName.getD "")) with _ | ti
    · simp [h1, hl]
    · by_cases hs : ti.symbol ≠ ""
      · simp [h1, hl, hs, enrichWithTicker_totalPositions]
      · simp [h1, hl, hs]
  · by_cases h2 : p.ticker ≠ ""
    · simp [h1, h2, enrichWithTicker_totalPositions]
    · simp [h1, h2]

theorem enrichFold_totalPositions (search : String → Option (List YahooQuote))
    (quoteData : String → Option StockData)
    (ps : List ImportPosition) (acc : List ImportPosition × ImportResults) :
    ((ps.foldl (enrichStep search quoteData) acc).2).totalPositions =
      acc.2.totalPositions := by
  induction ps generalizing acc with
  | nil => rfl
  | cons p rest ih =>
    rw [List.foldl_cons, ih]
    exact enrichStep_totalPositions search quoteData acc p

/-- Enrichment reports `totalPositions` as the number of candidate lots it
was given — parse-time drops are not counted. -/
theorem enrich_totalPositions (search : String → Option (List YahooQuote))
    (quoteData : String → Option StockData) (ps : List ImportPosition) :
    (enrichPositionsWithYahooFinance search quoteData ps).importResults.totalPositions =
      ps.length := by
  unfold enrichPositionsWithYahooFinance
  exact enrichFold_totalPositions search quoteData ps _

theorem getAttr_importedItem_portfolioId (userId portfolioId now : String)
    (p : ImportPosition) :
    getAttr (importedItem userId portfolioId now p) "portfolioId" =
      some (.str portfolioId) := by
  simp +decide [importedItem, getAttr, List.find?]

theorem getAttr_importedItem_ticker (userId portfolioId now : String)
    (p : ImportPosition) :
    getAttr (importedItem userId portfolioId now p) "ticker" =
      some (.str p.ticker) := by
  simp +decide [importedItem, getAttr, List.find?]

theorem importedItem_hasKey_ne (userId portfolioId now : String)
    (p : ImportPosition) (pid tk : String) (h : tk ≠ p.ticker) :
    itemHasKey (importedItem userId portfolioId now p) pid tk = false := by
  unfold itemHasKey
  rw [getAttr_importedItem_ticker]
  simp [Ne.symm h]

theorem keyExists_append_false {s e : PositionStore} {pid tk : String}
    (hs : keyExists s pid tk = false) (he : keyExists e pid tk = false) :
    keyExists (s ++ e) pid tk = false := by
  unfold keyExists at *
  rw [findPositionItem_append]
  rcases h1 : findPositionItem s pid tk with _ | it
  · rcases h2 : findPositionItem e pid tk with _ | it2
    · simp [Option.orElse]
    · rw [h2] at he
      simp at he
  · rw [h1] at hs
    simp at hs

theorem keyExists_singleton_importedItem (userId portfolioId now : String)
    (p : ImportPosition) (pid tk : String) (h : tk ≠ p.ticker) :
    keyExists [importedItem userId portfolioId now p] pid tk = false := by
  unfold keyExists findPositionItem
  rw [List.find?_cons_of_neg]
  · rfl
  · simp [importedItem_hasKey_ne userId portfolioId now p pid tk h]

/-- A save loop over rows whose keys are all absent from the store and
whose tickers are pairwise distinct inserts every row, in order, and
increments `addedPositions` once per row (touching nothing else). -/
theorem savePositionsLoop_all_fresh (userId portfolioId now : String)
    (ps : List ImportPosition) (store : PositionStore) (results : ImportResults)
    (hfresh : ∀ p ∈ ps, keyExists store portfolioId p.ticker = false)
    (hnodup : (ps.map (fun p => p.ticker)).Nodup) :
    savePositionsLoop userId portfolioId now ps store results =
      (store ++ ps.map (importedItem userId portfolioId now),
       { results with addedPositions := results.addedPositions + ps.length }) := by
  induction ps generalizing store results with
  | nil => simp [savePositionsLoop]
  | cons p rest ih =>
    conv_lhs => rw [savePositionsLoop]
    rw [hfresh p (List.mem_cons_self p rest)]
    simp only [Bool.false_eq_true, if_false]
    have hnodup' : (rest.map (fun p => p.ticker)).Nodup := (List.nodup_cons.mp hnodup).2
    have hnotmem : p.ticker ∉ rest.map (fun p => p.ticker) := (List.nodup_cons.mp hnodup).1
    have hfresh' : ∀ q ∈ rest,
        keyExists (store ++ [importedItem userId portfolioId now p])
          portfolioId q.ticker = false := by
      intro q hq
      refine keyExists_append_false (hfresh q (List.mem_cons_of_mem p hq)) ?_
      refine keyExists_singleton_importedItem userId portfolioId now p portfolioId q.ticker ?_
      intro hqt
      exact hnotmem (hqt ▸ List.mem_map_of_mem (fun p => p.ticker) hq)
    rw [ih _ _ hfresh' hnodup']
    simp only [List.map_cons, Prod.mk.injEq]
    refine ⟨by simp, ?_⟩
    congr 1
    simp only [List.length_cons]
    omega

/-! ## Claim C3 -/

/-- C3 counterexample: a 2-row batch whose second row is malformed
(missing shares) reports `totalPositions = 1`, not `N = 2` — the
malformed row is dropped before the tally is initialised, so it never
counts toward `totalPositions`. -/
theorem C3_total_excludes_malformed_row :
    (processExcelData "2024-01-01" "1/1/2024"
      [[("Symbol", "AAPL"), ("Shares", "10")], [("Symbol", "MSFT")]]).length = 1 ∧
    (enrichPositionsWithYahooFinance (fun _ => none) (fun _ => none)
      (processExcelData "2024-01-01" "1/1/2024"
        [[("Symbol", "AAPL"), ("Shares", "10")],
         [("Symbol", "MSFT")]])).importResults.totalPositions = 1 ∧
    (1 : ℕ) ≠ 2 := by
  have hc : processExcelData "2024-01-01" "1/1/2024"
      [[("Symbol", "AAPL"), ("Shares", "10")], [("Symbol", "MSFT")]] =
      [{ ticker := "AAPL", companyName := none, shares := 10, purchasePrice := 0,
         purchaseDate := "2024-01-01", currentPrice := none,
         notes := some "Imported from Excel on 1/1/2024" }] := by
    simp +decide [processExcelData, excelRowToCandidate, firstCell, getCell, parseFloatQ,
      digitsVal, jsTrim, jsIsSpace, List.dropWhile, List.takeWhile, List.filterMap]
  refine ⟨?_, ?_, by decide⟩
  · rw [hc]
    rfl
  · rw [hc, enrich_totalPositions]
    rfl

/-- C3 amended: for a batch of N rows with exactly one malformed row
(shares missing or not positive) and N-1 well-formed rows (with present,
pairwise-distinct tickers that quote successfully and are new to the
store), the malformed row is dropped at parse time, the result reports
`totalPositions = N-1` (not N) and `validPositions = N-1`, and all N-1
well-formed rows are persisted (`addedPositions = N-1`). -/
theorem C3_partial_failure
    (tI tL : String) (g1 g2 : List ExcelRow) (bad : ExcelRow)
    (search : String → Option (List YahooQuote)) (quoteData : String → Option StockData)
    (userId portfolioId now : String) (store : PositionStore)
    (hbad : ∀ q, parseFloatQ (firstCell bad
      ["Shares", "Quantity", "Holdings Quantity", "Amount", "Units"] "0") = some q →
      ¬ 0 < q)
    (hgood : ∀ r ∈ g1 ++ g2, (excelRowToCandidate tI tL r).isSome = true)
    (hq : ∀ c ∈ processExcelData tI tL (g1 ++ g2), c.ticker ≠ "" ∧
      ∃ sd, quoteData c.ticker = some sd ∧ sd.price ≠ 0)
    (hfresh : ∀ c ∈ processExcelData tI tL (g1 ++ g2),
      keyExists store portfolioId c.ticker = false)
    (hnodup : ((processExcelData tI tL (g1 ++ g2)).map (fun c => c.ticker)).Nodup) :
    let enr := enrichPositionsWithYahooFinance search quoteData
      (processExcelData tI tL (g1 ++ [bad] ++ g2))
    let saved := saveImportedPositions userId portfolioId now enr store
    processExcelData tI tL (g1 ++ [bad] ++ g2) = processExcelData tI tL (g1 ++ g2) ∧
    (g1 ++ [bad] ++ g2).length = (g1.length + g2.length) + 1 ∧
    enr.importResults.totalPositions = g1.length + g2.length ∧
    enr.importResults.validPositions = g1.length + g2.length ∧
    saved.2 = store ++ enr.enrichedPositions.map (importedItem userId portfolioId now) ∧
    saved.1 = ⟨200, .importReport "Portfolio data imported successfully"
      { enr.importResults with addedPositions := g1.length + g2.length }⟩ := by
  intro enr saved
  have hdrop : processExcelData tI tL (g1 ++ [bad] ++ g2) =
      processExcelData tI tL (g1 ++ g2) := by
    unfold processExcelData
    rw [List.filterMap_append, List.filterMap_append, List.filterMap_append]
    rw [show List.filterMap (excelRowToCandidate tI tL) [bad] = [] by
      simp [List.filterMap, excelRowToCandidate_bad_shares tI tL bad hbad]]
    simp
  have hlen : (processExcelData tI tL (g1 ++ g2)).length = g1.length + g2.length := by
    unfold processExcelData
    rw [length_filterMap_of_isSome _ _ hgood]
    simp
  have hfold := enrichFold_all_success search quoteData
    (processExcelData tI tL (g1 ++ g2))
    ([], { totalPositions := (processExcelData tI tL (g1 ++ g2)).length,
           validPositions := 0, addedPositions := 0, errors := 0, warnings := [] }) hq
  have henr : enr = enrichPositionsWithYahooFinance search quoteData
      (processExcelData tI tL (g1 ++ g2)) := by
    show enrichPositionsWithYahooFinance search quoteData
      (processExcelData tI tL (g1 ++ [bad] ++ g2)) = _
    rw [hdrop]
  have htick : enr.enrichedPositions.map (fun p => p.ticker) =
      (processExcelData tI tL (g1 ++ g2)).map (fun c => c.ticker) := by
    rw [henr]
    show ((processExcelData tI tL (g1 ++ g2)).foldl (enrichStep search quoteData)
      _).1.map (fun p => p.ticker) = _
    rw [hfold.1]
    simp
  have hz : enr.importResults.addedPositions = 0 := by
    rw [henr]
    exact enrich_addedPositions_zero search quoteData _
  have helen : enr.enrichedPositions.length = g1.length + g2.length := by
    have := congrArg List.length htick
    simpa [hlen] using this
  have hfresh2 : ∀ p ∈ enr.enrichedPositions,
      keyExists store portfolioId p.ticker = false := by
    intro p hp
    have : p.ticker ∈ (processExcelData tI tL (g1 ++ g2)).map (fun c => c.ticker) := by
      rw [← htick]
      exact List.mem_map_of_mem (fun p => p.ticker) hp
    obtain ⟨c, hc, hct⟩ := List.mem_map.mp this
    rw [← hct]
    exact hfresh c hc
  have hnodup2 : (enr.enrichedPositions.map (fun p => p.ticker)).Nodup := by
    rw [htick]
    exact hnodup
  have hsave := savePositionsLoop_all_fresh userId portfolioId now
    enr.enrichedPositions store enr.importResults hfresh2 hnodup2
  refine ⟨hdrop, by simp +arith, ?_, ?_, ?_, ?_⟩
  · rw [henr, enrich_totalPositions, hlen]
  · rw [henr]
    show ((processExcelData tI tL (g1 ++ g2)).foldl (enrichStep search quoteData)
      _).2.validPositions = _
    rw [hfold.2.1]
    simpa using hlen
  · show (savePositionsLoop userId portfolioId now
      enr.enrichedPositions store enr.importResults).1 = _
    rw [hsave]
  · show (⟨200, .importReport "Portfolio data imported successfully"
      (savePositionsLoop userId portfolioId now
        enr.enrichedPositions store enr.importResults).2⟩ : ApiResponse) = _
    rw [hsave]
    rw [show enr.importResults.addedPositions + enr.enrichedPositions.length =
      g1.length + g2.length by rw [hz, helen]; omega]

/-- C3 witness: `C3_partial_failure` on a concrete 2-row batch whose
second row lacks shares. -/
theorem C3_partial_failure_witness :
    let enr := enrichPositionsWithYahooFinance (fun _ => none)
      (fun _ => some { symbol := "Q", price := 160, name := none })
      (processExcelData "2024-01-01" "1/1/2024"
        ([[("Symbol", "AAPL"), ("Shares", "10")]] ++ [[("Symbol", "MSFT")]] ++ []))
    let saved := saveImportedPositions "u" "pf" "t0" enr []
    processExcelData "2024-01-01" "1/1/2024"
        ([[("Symbol", "AAPL"), ("Shares", "10")]] ++ [[("Symbol", "MSFT")]] ++ []) =
      processExcelData "2024-01-01" "1/1/2024"
        ([[("Symbol", "AAPL"), ("Shares", "10")]] ++ []) ∧
    ([[("Symbol", "AAPL"), ("Shares", "10")]] ++ [[("Symbol", "MSFT")]] ++ []).length =
      (([[("Symbol", "AAPL"), ("Shares", "10")]] : List ExcelRow).length +
        ([] : List ExcelRow).length) + 1 ∧
    enr.importResults.totalPositions =
      ([[("Symbol", "AAPL"), ("Shares", "10")]] : List ExcelRow).length +
        ([] : List ExcelRow).length ∧
    enr.importResults.validPositions =
      ([[("Symbol", "AAPL"), ("Shares", "10")]] : List ExcelRow).length +
        ([] : List ExcelRow).length ∧
    saved.2 = [] ++ enr.enrichedPositions.map (importedItem "u" "pf" "t0") ∧
    saved.1 = ⟨200, .importReport "Portfolio data imported successfully"
      { enr.importResults with addedPositions :=
          ([[("Symbol", "AAPL"), ("Shares", "10")]] : List ExcelRow).length +
            ([] : List ExcelRow).length }⟩ :=
  C3_partial_failure "2024-01-01" "1/1/2024"
    [[("Symbol", "AAPL"), ("Shares", "10")]] [] [("Symbol", "MSFT")]
    (fun _ => none) (fun _ => some { symbol := "Q", price := 160, name := none })
    "u" "pf" "t0" []
    (by
      intro q hq
      have h0 : parseFloatQ (firstCell [("Symbol", "MSFT")]
          ["Shares", "Quantity", "Holdings Quantity", "Amount", "Units"] "0") = some 0 := by
        simp +decide [firstCell, getCell, parseFloatQ, digitsVal,
          List.dropWhile, List.takeWhile]
      rw [h0] at hq
      cases hq
      exact lt_irrefl 0)
    (by
      intro r hr
      simp only [List.append_nil, List.mem_singleton] at hr
      subst hr
      simp +decide [excelRowToCandidate, firstCell, getCell, parseFloatQ,
        digitsVal, jsTrim, jsIsSpace, List.dropWhile, List.takeWhile])
    (by
      intro c hc
      have hcand : processExcelData "2024-01-01" "1/1/2024"
          ([[("Symbol", "AAPL"), ("Shares", "10")]] ++ []) =
          [{ ticker := "AAPL", companyName := none, shares := 10, purchasePrice := 0,
             purchaseDate := "2024-01-01", currentPrice := none,
             notes := some "Imported from Excel on 1/1/2024" }] := by
        simp +decide [processExcelData, excelRowToCandidate, firstCell, getCell,
          parseFloatQ, digitsVal, jsTrim, jsIsSpace, List.dropWhile, List.takeWhile,
          List.filterMap]
      rw [hcand] at hc
      simp only [List.mem_singleton] at hc
      subst hc
      exact ⟨by decide, { symbol := "Q", price := 160, name := none }, rfl, by norm_num⟩)
    (fun c _ => rfl)
    (by
      have hcand : processExcelData "2024-01-01" "1/1/2024"
          ([[("Symbol", "AAPL"), ("Shares", "10")]] ++ []) =
          [{ ticker := "AAPL", companyName := none, shares := 10, purchasePrice := 0,
             purchaseDate := "2024-01-01", currentPrice := none,
             notes := some "Imported from Excel on 1/1/2024" }] := by
        simp +decide [processExcelData, excelRowToCandidate, firstCell, getCell,
          parseFloatQ, digitsVal, jsTrim, jsIsSpace, List.dropWhile, List.takeWhile,
          List.filterMap]
      rw [hcand]
      decide)

/-! ## Claim C9 -/

theorem getAttr_applyAttrs_last (it : Item) (xs : List (String × AttrVal))
    (k : String) (v : AttrVal) :
    getAttr (applyAttrs it (xs ++ [(k, v)])) k = some v := by
  unfold applyAttrs
  rw [List.foldl_append]
  exact getAttr_setAttr_self _ k v

theorem payloadUpdateAttrs_keys (updates : Item) (kv : String × AttrVal)
    (h : kv ∈ payloadUpdateAttrs updates) :
    kv.1 ∈ updates.map Prod.fst ∧ kv.1 ∉ updateFrameKeys := by
  unfold payloadUpdateAttrs at h
  obtain ⟨kv', hkv', hmap⟩ := List.mem_map.mp h
  have hfil := List.mem_filter.mp hkv'
  have hk1 : kv.1 = kv'.1 := by
    by_cases hn : kv'.1 = "shares" ∨ kv'.1 = "purchasePrice"
    · rw [if_pos hn] at hmap
      rw [← hmap]
    · rw [if_neg hn] at hmap
      rw [← hmap]
  rw [hk1]
  exact ⟨List.mem_map_of_mem Prod.fst hfil.1, by simpa using hfil.2⟩

theorem currentPriceAttr_keys (updates existingItem : Item) (rand : ℚ)
    (kv : String × AttrVal) (h : kv ∈ currentPriceAttr updates existingItem rand) :
    kv.1 = "currentPrice" := by
  unfold currentPriceAttr at h
  by_cases hc : truthyOpt (getAttr updates "shares") = true ∨
      truthyOpt (getAttr updates "purchasePrice") = true
  · rw [if_pos (by simpa using hc)] at h
    rw [List.mem_singleton] at h
    rw [h]
  · rw [if_neg (by simpa using hc)] at h
    simp at h

/-- C9 counterexample: an update payload that contains `shares` with the
value 0 writes `shares` but does not rewrite `currentPrice` (the source
gates the mock on JavaScript truthiness, and `updates.shares = 0` is
falsy) — so `currentPrice` is not rewritten "exactly when the payload
contains shares or purchasePrice".  Had it been rewritten, its value
would be 90 (`100 * (1 + (0 * 0.2 - 0.1))`), not the old 110. -/
theorem C9_zero_shares_keeps_currentPrice :
    ((updatePosition (.ok true)
      [[("portfolioId", AttrVal.str "pf"), ("ticker", AttrVal.str "AAPL"),
        ("userId", AttrVal.str "u"), ("shares", AttrVal.num 10),
        ("purchasePrice", AttrVal.num 100), ("currentPrice", AttrVal.num 110),
        ("createdAt", AttrVal.str "t0"), ("updatedAt", AttrVal.str "t0")]]
      "u" "pf" "AAPL" [("shares", AttrVal.num 0)] "t1" 0).2).map
        (fun it => getAttr it "currentPrice") = [some (AttrVal.num 110)] ∧
    ((updatePosition (.ok true)
      [[("portfolioId", AttrVal.str "pf"), ("ticker", AttrVal.str "AAPL"),
        ("userId", AttrVal.str "u"), ("shares", AttrVal.num 10),
        ("purchasePrice", AttrVal.num 100), ("currentPrice", AttrVal.num 110),
        ("createdAt", AttrVal.str "t0"), ("updatedAt", AttrVal.str "t0")]]
      "u" "pf" "AAPL" [("shares", AttrVal.num 0)] "t1" 0).2).map
        (fun it => getAttr it "shares") = [some (AttrVal.num 0)] ∧
    (getAttr [("shares", AttrVal.num 0)] "shares").isSome = true ∧
    AttrVal.num 110 ≠ AttrVal.num ((100 : ℚ) * (1 + ((0 : ℚ) * (1/5) - 1/10))) := by
  refine ⟨?_, ?_, by decide, ?_⟩
  · simp +decide [updatePosition, checkPortfolioExists, findPositionItem, itemHasKey,
      getAttr, numericUpdateBad, truthyOpt, AttrVal.truthy, toNumber, buildUpdateAttrs,
      payloadUpdateAttrs, currentPriceAttr,
      updateFrameKeys, applyAttrs, setAttr, replacePositionItem, List.find?]
  · simp +decide [updatePosition, checkPortfolioExists, findPositionItem, itemHasKey,
      getAttr, numericUpdateBad, truthyOpt, AttrVal.truthy, toNumber, buildUpdateAttrs,
      payloadUpdateAttrs, currentPriceAttr,
      updateFrameKeys, applyAttrs, setAttr, replacePositionItem, List.find?]
  · intro h
    rw [show ((100 : ℚ) * (1 + ((0 : ℚ) * (1/5) - 1/10))) = 90 by norm_num] at h
    exact absurd (AttrVal.num.inj h) (by norm_num)

/-- C9 amended: a successful `updatePosition` never changes the stored
row's `portfolioId`, `ticker`, `userId` or `createdAt`; it always
rewrites `updatedAt` to the call's timestamp; it rewrites `currentPrice`
(to the mocked value) exactly when the payload's `shares` or
`purchasePrice` value is truthy — a present-but-zero/empty value does not
trigger it; and every attribute outside the payload, `updatedAt` and
`currentPrice` keeps its old value. -/
theorem C9_update_frame (pg : DbGetResult) (store : PositionStore)
    (userId portfolioId ticker : String) (updates : Item) (now : String) (rand : ℚ)
    (existingItem : Item)
    (hg : checkPortfolioExists pg = true)
    (hfind : findPositionItem store portfolioId ticker = some existingItem)
    (huser : getAttr existingItem "userId" = some (.str userId))
    (hv1 : numericUpdateBad updates "shares" = false)
    (hv2 : numericUpdateBad updates "purchasePrice" = false)
    (hupd : ∀ kv ∈ updates, kv.1 ≠ "updatedAt" ∧ kv.1 ≠ "currentPrice") :
    let newItem := applyAttrs existingItem (buildUpdateAttrs updates now existingItem rand)
    updatePosition pg store userId portfolioId ticker updates now rand =
      (⟨200, .itemBody newItem⟩, replacePositionItem store portfolioId ticker newItem) ∧
    getAttr newItem "portfolioId" = getAttr existingItem "portfolioId" ∧
    getAttr newItem "ticker" = getAttr existingItem "ticker" ∧
    getAttr newItem "userId" = getAttr existingItem "userId" ∧
    getAttr newItem "createdAt" = getAttr existingItem "createdAt" ∧
    getAttr newItem "updatedAt" = some (.str now) ∧
    getAttr newItem "currentPrice" =
      (if truthyOpt (getAttr updates "shares") ∨ truthyOpt (getAttr updates "purchasePrice") then
        some (.num (mockCurrentPrice updates existingItem rand))
      else getAttr existingItem "currentPrice") ∧
    (∀ k, k ∉ updates.map Prod.fst → k ≠ "updatedAt" → k ≠ "currentPrice" →
      getAttr newItem k = getAttr existingItem k) := by
  intro newItem
  have hPno : ∀ kv ∈ payloadUpdateAttrs updates,
      kv.1 ≠ "updatedAt" ∧ kv.1 ≠ "currentPrice" := by
    intro kv hkv
    obtain ⟨hin, _⟩ := payloadUpdateAttrs_keys updates kv hkv
    obtain ⟨kv', hkv', hfst⟩ := List.mem_map.mp hin
    rw [← hfst]
    exact hupd kv' hkv'
  have hother : ∀ k, k ≠ "updatedAt" → k ≠ "currentPrice" →
      k ∉ updates.map Prod.fst →
      getAttr newItem k = getAttr existingItem k := by
    intro k hk1 hk2 hk
    refine getAttr_applyAttrs_not_mem existingItem _ k ?_
    intro kv hkv
    unfold buildUpdateAttrs at hkv
    rw [List.mem_append, List.mem_append] at hkv
    rcases hkv with (h | h) | h
    · rw [List.mem_singleton] at h
      have hkv1 : kv.1 = "updatedAt" := by rw [h]
      rw [hkv1]
      exact fun he => hk1 he.symm
    · exact fun he => hk (he ▸ (payloadUpdateAttrs_keys updates kv h).1)
    · rw [currentPriceAttr_keys updates existingItem rand kv h]
      exact fun he => hk2 he.symm
  have hframe : ∀ k, k ∈ updateFrameKeys →
      getAttr newItem k = getAttr existingItem k := by
    intro k hk
    refine getAttr_applyAttrs_not_mem existingItem _ k ?_
    intro kv hkv
    unfold buildUpdateAttrs at hkv
    rw [List.mem_append, List.mem_append] at hkv
    rcases hkv with (h | h) | h
    · rw [List.mem_singleton] at h
      have hkv1 : kv.1 = "updatedAt" := by rw [h]
      rw [hkv1]
      intro he
      rw [← he] at hk
      revert hk
      decide
    · exact fun he => (payloadUpdateAttrs_keys updates kv h).2 (he ▸ hk)
    · rw [currentPriceAttr_keys updates existingItem rand kv h]
      intro he
      rw [← he] at hk
      revert hk
      decide
  refine ⟨?_, hframe _ (by decide), hframe _ (by decide), hframe _ (by decide),
    hframe _ (by decide), ?_, ?_, fun k hk hk1 hk2 => hother k hk1 hk2 hk⟩
  · unfold updatePosition
    rw [hg]
    simp only [Bool.not_true, Bool.false_eq_true, if_false, ite_false]
    rw [hfind]
    dsimp only
    rw [if_neg (show ¬ getAttr existingItem "userId" ≠ some (AttrVal.str userId)
      from fun hne => hne huser)]
    rw [if_neg (show ¬ numericUpdateBad updates "shares" = true
      from fun hcontra => by rw [hv1] at hcontra; exact Bool.false_ne_true hcontra)]
    rw [if_neg (show ¬ numericUpdateBad updates "purchasePrice" = true
      from fun hcontra => by rw [hv2] at hcontra; exact Bool.false_ne_true hcontra)]
    simp
  · show getAttr (applyAttrs (setAttr existingItem "updatedAt" (.str now))
      (payloadUpdateAttrs updates ++ currentPriceAttr updates existingItem rand))
      "updatedAt" = some (.str now)
    rw [getAttr_applyAttrs_not_mem]
    · exact getAttr_setAttr_self existingItem "updatedAt" (.str now)
    · intro kv hkv
      rcases List.mem_append.mp hkv with h | h
      · exact (hPno kv h).1
      · rw [currentPriceAttr_keys updates existingItem rand kv h]
        decide
  · by_cases hc : truthyOpt (getAttr updates "shares") = true ∨
        truthyOpt (getAttr updates "purchasePrice") = true
    · rw [if_pos (by simpa using hc)]
      have hshape : buildUpdateAttrs updates now existingItem rand =
          ([("updatedAt", AttrVal.str now)] ++ payloadUpdateAttrs updates) ++
            [("currentPrice", AttrVal.num (mockCurrentPrice updates existingItem rand))] := by
        unfold buildUpdateAttrs currentPriceAttr
        rw [if_pos (by simpa using hc), List.append_assoc]
      show getAttr (applyAttrs existingItem (buildUpdateAttrs updates now existingItem rand))
        "currentPrice" = _
      rw [hshape]
      exact getAttr_applyAttrs_last existingItem _ "currentPrice" _
    · rw [if_neg (by simpa using hc)]
      have hshape : buildUpdateAttrs updates now existingItem rand =
          [("updatedAt", AttrVal.str now)] ++ payloadUpdateAttrs updates := by
        unfold buildUpdateAttrs currentPriceAttr
        rw [if_neg (by simpa using hc)]
        simp
      show getAttr (applyAttrs existingItem (buildUpdateAttrs updates now existingItem rand))
        "currentPrice" = _
      rw [hshape]
      show getAttr (applyAttrs (setAttr existingItem "updatedAt" (.str now))
        (payloadUpdateAttrs updates)) "currentPrice" = _
      rw [getAttr_applyAttrs_not_mem]
      · exact getAttr_setAttr_ne existingItem "updatedAt" (.str now) "currentPrice" (by decide)
      · exact fun kv hkv => (hPno kv hkv).2

/-- C9 witness: `C9_update_frame` on a concrete stored row and a payload
whose `purchasePrice` is truthy (so the mock current price fires). -/
theorem C9_update_frame_witness :
    let newItem := applyAttrs
      [("portfolioId", AttrVal.str "pf"), ("ticker", AttrVal.str "AAPL"),
       ("userId", AttrVal.str "u"), ("shares", AttrVal.num 10),
       ("purchasePrice", AttrVal.num 100), ("currentPrice", AttrVal.num 110),
       ("createdAt", AttrVal.str "t0"), ("updatedAt", AttrVal.str "t0")]
      (buildUpdateAttrs [("notes", AttrVal.str "updated"), ("purchasePrice", AttrVal.num 120)] "t1"
        [("portfolioId", AttrVal.str "pf"), ("ticker", AttrVal.str "AAPL"),
       ("userId", AttrVal.str "u"), ("shares", AttrVal.num 10),
       ("purchasePrice", AttrVal.num 100), ("currentPrice", AttrVal.num 110),
       ("createdAt", AttrVal.str "t0"), ("updatedAt", AttrVal.str "t0")] 0)
    updatePosition (.ok true)
      [[("portfolioId", AttrVal.str "pf"), ("ticker", AttrVal.str "AAPL"),
       ("userId", AttrVal.str "u"), ("shares", AttrVal.num 10),
       ("purchasePrice", AttrVal.num 100), ("currentPrice", AttrVal.num 110),
       ("createdAt", AttrVal.str "t0"), ("updatedAt", AttrVal.str "t0")]]
      "u" "pf" "AAPL" [("notes", AttrVal.str "updated"), ("purchasePrice", AttrVal.num 120)] "t1" 0 =
      (⟨200, .itemBody newItem⟩, replacePositionItem
        [[("portfolioId", AttrVal.str "pf"), ("ticker", AttrVal.str "AAPL"),
       ("userId", AttrVal.str "u"), ("shares", AttrVal.num 10),
       ("purchasePrice", AttrVal.num 100), ("currentPrice", AttrVal.num 110),
       ("createdAt", AttrVal.str "t0"), ("updatedAt", AttrVal.str "t0")]]
        "pf" "AAPL" newItem) ∧
    getAttr newItem "portfolioId" = getAttr
      [("portfolioId", AttrVal.str "pf"), ("ticker", AttrVal.str "AAPL"),
       ("userId", AttrVal.str "u"), ("shares", AttrVal.num 10),
       ("purchasePrice", AttrVal.num 100), ("currentPrice", AttrVal.num 110),
       ("createdAt", AttrVal.str "t0"), ("updatedAt", AttrVal.str "t0")] "portfolioId" ∧
    getAttr newItem "ticker" = getAttr
      [("portfolioId", AttrVal.str "pf"), ("ticker", AttrVal.str "AAPL"),
       ("userId", AttrVal.str "u"), ("shares", AttrVal.num 10),
       ("purchasePrice", AttrVal.num 100), ("currentPrice", AttrVal.num 110),
       ("createdAt", AttrVal.str "t0"), ("updatedAt", AttrVal.str "t0")] "ticker" ∧
    getAttr newItem "userId" = getAttr
      [("portfolioId", AttrVal.str "pf"), ("ticker", AttrVal.str "AAPL"),
       ("userId", AttrVal.str "u"), ("shares", AttrVal.num 10),
       ("purchasePrice", AttrVal.num 100), ("currentPrice", AttrVal.num 110),
       ("createdAt", AttrVal.str "t0"), ("updatedAt", AttrVal.str "t0")] "userId" ∧
    getAttr newItem "createdAt" = getAttr
      [("portfolioId", AttrVal.str "pf"), ("ticker", AttrVal.str "AAPL"),
       ("userId", AttrVal.str "u"), ("shares", AttrVal.num 10),
       ("purchasePrice", AttrVal.num 100), ("currentPrice", AttrVal.num 110),
       ("createdAt", AttrVal.str "t0"), ("updatedAt", AttrVal.str "t0")] "createdAt" ∧
    getAttr newItem "updatedAt" = some (.str "t1") ∧
    getAttr newItem "currentPrice" =
      (if truthyOpt (getAttr [("notes", AttrVal.str "updated"), ("purchasePrice", AttrVal.num 120)] "shares") ∨
          truthyOpt (getAttr [("notes", AttrVal.str "updated"), ("purchasePrice", AttrVal.num 120)] "purchasePrice") then
        some (.num (mockCurrentPrice [("notes", AttrVal.str "updated"), ("purchasePrice", AttrVal.num 120)]
          [("portfolioId", AttrVal.str "pf"), ("ticker", AttrVal.str "AAPL"),
       ("userId", AttrVal.str "u"), ("shares", AttrVal.num 10),
       ("purchasePrice", AttrVal.num 100), ("currentPrice", AttrVal.num 110),
       ("createdAt", AttrVal.str "t0"), ("updatedAt", AttrVal.str "t0")] 0))
      else getAttr
        [("portfolioId", AttrVal.str "pf"), ("ticker", AttrVal.str "AAPL"),
       ("userId", AttrVal.str "u"), ("shares", AttrVal.num 10),
       ("purchasePrice", AttrVal.num 100), ("currentPrice", AttrVal.num 110),
       ("createdAt", AttrVal.str "t0"), ("updatedAt", AttrVal.str "t0")] "currentPrice") ∧
    (∀ k, k ∉ ([("notes", AttrVal.str "updated"), ("purchasePrice", AttrVal.num 120)] : Item).map Prod.fst →
      k ≠ "updatedAt" → k ≠ "currentPrice" →
      getAttr newItem k = getAttr
        [("portfolioId", AttrVal.str "pf"), ("ticker", AttrVal.str "AAPL"),
       ("userId", AttrVal.str "u"), ("shares", AttrVal.num 10),
       ("purchasePrice", AttrVal.num 100), ("currentPrice", AttrVal.num 110),
       ("createdAt", AttrVal.str "t0"), ("updatedAt", AttrVal.str "t0")] k) :=
  C9_update_frame (.ok true)
    [[("portfolioId", AttrVal.str "pf"), ("ticker", AttrVal.str "AAPL"),
       ("userId", AttrVal.str "u"), ("shares", AttrVal.num 10),
       ("purchasePrice", AttrVal.num 100), ("currentPrice", AttrVal.num 110),
       ("createdAt", AttrVal.str "t0"), ("updatedAt", AttrVal.str "t0")]]
    "u" "pf" "AAPL" [("notes", AttrVal.str "updated"), ("purchasePrice", AttrVal.num 120)] "t1" 0
    [("portfolioId", AttrVal.str "pf"), ("ticker", AttrVal.str "AAPL"),
       ("userId", AttrVal.str "u"), ("shares", AttrVal.num 10),
       ("purchasePrice", AttrVal.num 100), ("currentPrice", AttrVal.num 110),
       ("createdAt", AttrVal.str "t0"), ("updatedAt", AttrVal.str "t0")]
    rfl (by decide) (by decide) (by decide) (by decide) (by decide)
